import Mathlib

/-!
Verification development for the edge-based graph factory
(src/src/extractor/edge_based_graph_factory.cpp).

The node-based graph, its edge data, and the factory routines
(RenumberEdges, InsertEdgeBasedNode, GenerateEdgeExpandedNodes,
getTurnCandidates, AnalyzeTurn, GetTurnPenalty, optimizeCandidates,
suppressTurns, GenerateEdgeExpandedEdges) are embedded as executable Lean
functions.  External collaborators that are not part of the source file
(the restriction map, the compressed geometry container, the barrier and
traffic light sets, the lua turn penalty hook, the guidance toolkit
predicates that live in missing headers) are modelled from the
specification as explicit parameters collected in a `FactoryEnv`
structure.  Machine integers are modelled as `Nat`/`Int` with explicit
reduction modulo 2 to the 32nd power where the source performs unsigned
32-bit arithmetic.  Angles, which are `double` in the source, are
modelled as rationals.
-/

namespace EBGF

/-- Modelled from the spec, section 6: `SPECIAL_NODEID = SPECIAL_EDGEID = u32 max`. -/
def SPECIAL_NODEID : Nat := 4294967295

/-- Modelled from the spec, section 6: `SPECIAL_EDGEID` equals `SPECIAL_NODEID`. -/
def SPECIAL_EDGEID : Nat := 4294967295

/-- Modelled from the spec, section 6: `INVALID_EDGE_WEIGHT = u32 max`.
The expanded-node weight vector holds `EdgeWeight` values, modelled as `Int`. -/
def INVALID_EDGE_WEIGHT : Int := 4294967295

/-- Modelled from the spec, section 6: `INVALID_COMPONENTID = u32 max`. -/
def INVALID_COMPONENTID : Nat := 4294967295

/-- 2 to the 32nd power, the modulus of unsigned 32-bit arithmetic. -/
def U32MOD : Int := 4294967296

/-- Unsigned 32-bit accumulation `a += b` where `a` is `unsigned` and `b` is a
(signed) penalty: the signed value is added modulo 2 to the 32nd power. -/
def u32add (a : Nat) (b : Int) : Nat := (((a : Int) + b) % U32MOD).toNat

/-- Modelled from the spec: the `double` values of the source (angles,
confidences, hook penalties) are modelled as exact rationals, represented
as an integer numerator over a positive natural denominator.  The
representation is deliberately kept unnormalized (no gcd reduction) so
every operation reduces inside the Lean kernel; all comparisons are by
cross multiplication, so the value semantics are those of the rational
numbers. -/
structure Q where
  num : Int
  den : Nat
deriving DecidableEq, Repr

instance (n : Nat) : OfNat Q n := ⟨⟨n, 1⟩⟩

instance : LE Q := ⟨fun a b => a.num * (b.den : Int) ≤ b.num * (a.den : Int)⟩

instance : LT Q := ⟨fun a b => a.num * (b.den : Int) < b.num * (a.den : Int)⟩

instance (a b : Q) : Decidable (a ≤ b) := Int.decLe _ _

instance (a b : Q) : Decidable (a < b) := Int.decLt _ _

/-- Value equality of two represented rationals (cross multiplication),
the meaning of `==` on doubles. -/
instance : BEq Q := ⟨fun a b => a.num * (b.den : Int) == b.num * (a.den : Int)⟩

instance : Add Q := ⟨fun a b => ⟨a.num * b.den + b.num * a.den, a.den * b.den⟩⟩

instance : Sub Q := ⟨fun a b => ⟨a.num * b.den - b.num * a.den, a.den * b.den⟩⟩

instance : Mul Q := ⟨fun a b => ⟨a.num * b.num, a.den * b.den⟩⟩

instance : Neg Q := ⟨fun a => ⟨-a.num, a.den⟩⟩

/-- Division; a zero divisor yields 0 (the single division site below is
short-circuited in the source whenever the divisor is zero, so the infinity
of double arithmetic is never observed). -/
instance : Div Q := ⟨fun a b =>
  if 0 < b.num then ⟨a.num * b.den, a.den * b.num.toNat⟩
  else if b.num = 0 then ⟨0, 1⟩
  else ⟨-(a.num * (b.den : Int)), a.den * (-b.num).toNat⟩⟩

/-- Absolute value (the denominator is positive by construction). -/
def Q.abs (a : Q) : Q := if 0 ≤ a.num then a else ⟨-a.num, a.den⟩

/-- Minimum of two represented rationals. -/
def Q.min (a b : Q) : Q := if a ≤ b then a else b

/-- Turn instruction types (data model of the spec, section 3). -/
inductive TurnType where
  | Turn | Ramp | Merge | Fork | EndOfRoad | Continue | NewName | Suppressed
  | EnterRoundabout | ExitRoundabout | RemainRoundabout | EnterRotary
  | EnterRotaryAtExit | EnterRoundaboutAtExit | Invalid | NoTurn
deriving DecidableEq, Repr

/-- Turn direction modifiers (data model of the spec, section 3). -/
inductive DirectionModifier where
  | UTurn | SharpRight | Right | SlightRight | Straight | SlightLeft | Left | SharpLeft
deriving DecidableEq, Repr

/-- A tagged turn instruction: type plus direction modifier. -/
structure TurnInstruction where
  type : TurnType
  direction_modifier : DirectionModifier
deriving DecidableEq, Repr

/-- Modelled from the spec: `TurnInstruction::NO_TURN()` is the `NoTurn`
instruction (the constructor defaults live in a missing header; the modifier
is the enum default `UTurn`). -/
def NO_TURN : TurnInstruction := ⟨TurnType.NoTurn, DirectionModifier.UTurn⟩

/-- Per-directed-source-edge data (`EdgeData` of the node-based graph;
the struct itself lives in a missing header and is modelled from the spec,
section 3).  `distance` is the nonnegative 32-bit edge weight. -/
structure EdgeData where
  distance : Nat
  name_id : Nat
  travel_mode : Nat
  reversed : Bool
  roundabout : Bool
  startpoint : Bool
  road_class : Nat
  edge_id : Nat
deriving DecidableEq, Repr

/-- Placeholder edge data returned for out-of-range accesses (never reached
on well-formed inputs; `reversed` is true so a missing reverse edge does not
count as bidirectional). -/
def dummyEdgeData : EdgeData :=
  ⟨0, 0, 0, true, false, false, 0, SPECIAL_EDGEID⟩

/-- A directed edge of the node-based graph: source node, target node, data. -/
structure NBEdge where
  source : Nat
  target : Nat
  data : EdgeData
deriving DecidableEq, Repr

/-- The node-based dynamic graph: nodes are `0 .. numNodes - 1`, edges are
indexed by their position in `edges`. -/
structure Graph where
  numNodes : Nat
  edges : List NBEdge
deriving DecidableEq, Repr

def dummyNBEdge : NBEdge := ⟨SPECIAL_NODEID, SPECIAL_NODEID, dummyEdgeData⟩

/-- `GetEdgeData` of the node-based graph. -/
def getEdgeData (g : Graph) (e : Nat) : EdgeData := (g.edges.getD e dummyNBEdge).data

/-- `GetTarget` of the node-based graph. -/
def GetTarget (g : Graph) (e : Nat) : Nat := (g.edges.getD e dummyNBEdge).target

/-- `GetAdjacentEdgeRange(u)`: the edges emanating from `u`, in index order. -/
def adjacentEdges (g : Graph) (u : Nat) : List Nat :=
  (List.range g.edges.length).filter (fun i => (g.edges.getD i dummyNBEdge).source == u)

/-- `FindEdge(u,v)`: the first edge from `u` to `v`, `SPECIAL_EDGEID` if none. -/
def FindEdge (g : Graph) (u v : Nat) : Nat :=
  ((List.range g.edges.length).find? (fun i =>
      (g.edges.getD i dummyNBEdge).source == u &&
      (g.edges.getD i dummyNBEdge).target == v)).getD SPECIAL_EDGEID

/-- `GetOutDegree(u)`: number of adjacent edges of `u`. -/
def GetOutDegree (g : Graph) (u : Nat) : Nat := (adjacentEdges g u).length

/-- Modelled from the spec, section 4.5.1: `GetDirectedOutDegree(u)` counts the
adjacent edges of `u` that are not reversed (the method body is in a missing
header). -/
def GetDirectedOutDegree (g : Graph) (u : Nat) : Nat :=
  ((adjacentEdges g u).filter (fun i => !(getEdgeData g i).reversed)).length

/-- The speed profile properties consumed by the factory (spec, section 6). -/
structure SpeedProfile where
  u_turn_penalty : Int
  traffic_signal_penalty : Int
  has_turn_penalty_function : Bool
deriving DecidableEq, Repr

/-- Modelled from the spec, sections 1 and 6: the external collaborators of the
factory.  `onlyTurnTarget` is `RestrictionMap::CheckForEmanatingIsOnlyTurn`,
`isTurnRestricted` is `RestrictionMap::CheckIfTurnIsRestricted`, `isBarrier`
and `isTrafficLight` are set membership of the barrier and traffic light node
sets, `angleOf from via turn onto to` is the composition of
`getRepresentativeCoordinate` and `computeAngle` at a turn (a pure geometric
oracle), `turnConfidence` is `getTurnConfidence`, `turnHook` is the fallible
lua `turn_function` (`none` models a failed call), `geomFwd`/`geomPos` are the
compressed edge container queries `GetBucketReference`/`GetPositionForID`
(geometry entries are `(node_id, weight)` pairs), and the remaining fields are
the guidance-toolkit road-class and instruction predicates whose definitions
live in missing headers. -/
structure FactoryEnv where
  onlyTurnTarget : Nat → Nat → Nat
  isTurnRestricted : Nat → Nat → Nat → Bool
  isBarrier : Nat → Bool
  isTrafficLight : Nat → Bool
  angleOf : Nat → Nat → Nat → Nat → Nat → Q
  turnConfidence : Q → TurnInstruction → Q
  turnHook : Q → Option Q
  profile : SpeedProfile
  geomFwd : Nat → List (Nat × Nat)
  geomPos : Nat → Nat
  isRampClass : Nat → Bool
  isLowPriorityClass : Nat → Bool
  isBasicT : TurnType → Bool
  canBeSuppressedT : TurnType → Bool
  isConflictI : TurnInstruction → TurnInstruction → Bool

/-- Source constant `STRAIGHT_ANGLE = 180`. -/
def STRAIGHT_ANGLE : Q := 180

/-- Source constant `MAXIMAL_ALLOWED_NO_TURN_DEVIATION = 2`. -/
def MAXIMAL_ALLOWED_NO_TURN_DEVIATION : Q := 2

/-- Source constant `NARROW_TURN_ANGLE = 35`. -/
def NARROW_TURN_ANGLE : Q := 35

/-- Source constant `FUZZY_STRAIGHT_ANGLE = 15`. -/
def FUZZY_STRAIGHT_ANGLE : Q := 15

/-- Source constant `DISTINCTION_RATIO = 2` (renamed, Lean naming limits). -/
def DISTINCTION_FACTOR : Q := 2

/-- Modelled from the spec, section 4.2:
`angular_deviation(a,b) = min(abs(a-b), 360-abs(a-b))`. -/
def angularDeviation (a b : Q) : Q := Q.min (Q.abs (a - b)) ((360 : Q) - Q.abs (a - b))

/-- Modelled from the spec, section 4.2: `getTurnDirection` partitions
`[0,360)` into the eight modifiers by fixed thresholds, `UTurn` near 0/360 and
the remaining seven roughly symmetric around 180. -/
def getTurnDirection (angle : Q) : DirectionModifier :=
  if 23 ≤ angle ∧ angle < 67 then DirectionModifier.SharpRight
  else if 67 ≤ angle ∧ angle < 113 then DirectionModifier.Right
  else if 113 ≤ angle ∧ angle < 158 then DirectionModifier.SlightRight
  else if 158 ≤ angle ∧ angle ≤ 202 then DirectionModifier.Straight
  else if 202 < angle ∧ angle ≤ 248 then DirectionModifier.SlightLeft
  else if 248 < angle ∧ angle ≤ 292 then DirectionModifier.Left
  else if 292 < angle ∧ angle ≤ 337 then DirectionModifier.SharpLeft
  else DirectionModifier.UTurn

/-- Modelled from the spec: `isUturn` holds for the basic turn instruction
with the `UTurn` modifier (section 4.5.1 produces `(Turn, UTurn)` for
U-turns). -/
def isUturnB (i : TurnInstruction) : Bool :=
  i.type == TurnType.Turn && i.direction_modifier == DirectionModifier.UTurn

/-- Modelled from the spec, section 3: the instruction types that enter a
roundabout or rotary. -/
def entersRoundaboutB (i : TurnInstruction) : Bool :=
  i.type == TurnType.EnterRoundabout || i.type == TurnType.EnterRotary ||
  i.type == TurnType.EnterRoundaboutAtExit || i.type == TurnType.EnterRotaryAtExit

/-- Modelled from the spec, section 3: the instruction types located on a
roundabout (entering, staying, or exiting). -/
def isOnRoundaboutB (i : TurnInstruction) : Bool :=
  entersRoundaboutB i || i.type == TurnType.RemainRoundabout ||
  i.type == TurnType.ExitRoundabout

/-- Modelled from the spec: `isSlightModifier` holds for the two slight
modifiers. -/
def isSlightModifier (m : DirectionModifier) : Bool :=
  m == DirectionModifier.SlightRight || m == DirectionModifier.SlightLeft

/-- Modelled from the spec: `isSlightTurn` holds for instructions with a
slight modifier. -/
def isSlightTurnB (i : TurnInstruction) : Bool := isSlightModifier i.direction_modifier

/-- Modelled from the spec: `isSharpTurn` holds for instructions with a sharp
modifier. -/
def isSharpTurnB (i : TurnInstruction) : Bool :=
  i.direction_modifier == DirectionModifier.SharpRight ||
  i.direction_modifier == DirectionModifier.SharpLeft

/-- Modelled from the spec, section 2: `mirrorDirectionModifier` swaps the
left and right counterparts and fixes `UTurn` and `Straight`. -/
def mirrorDirectionModifier (m : DirectionModifier) : DirectionModifier :=
  match m with
  | DirectionModifier.UTurn => DirectionModifier.UTurn
  | DirectionModifier.SharpRight => DirectionModifier.SharpLeft
  | DirectionModifier.Right => DirectionModifier.Left
  | DirectionModifier.SlightRight => DirectionModifier.SlightLeft
  | DirectionModifier.Straight => DirectionModifier.Straight
  | DirectionModifier.SlightLeft => DirectionModifier.SlightRight
  | DirectionModifier.Left => DirectionModifier.Right
  | DirectionModifier.SharpLeft => DirectionModifier.SharpRight

/-- C++ truncation `static_cast<int>` of a double (modelled as a represented
rational): round toward zero (`Int.div` on a positive denominator). -/
def cppTruncToInt (q : Q) : Int := q.num.tdiv (q.den : Int)

/-- `GetTurnPenalty(angle, lua_state)`: calls the lua hook `turn_function`
with `180 - angle` when the profile has a turn penalty function, truncating
the returned double to `int`; a failed call (or an absent function) yields
0. -/
def GetTurnPenalty (env : FactoryEnv) (angle : Q) : Int :=
  if env.profile.has_turn_penalty_function then
    match env.turnHook (180 - angle) with
    | some penalty => cppTruncToInt penalty
    | none => 0
  else 0

/-- `AnalyzeTurn(node_u, edge1, node_v, edge2, node_w, angle)`:
the initial instruction of a turn. -/
def AnalyzeTurn (env : FactoryEnv) (g : Graph) (node_u edge1 node_v edge2 node_w : Nat)
    (angle : Q) : TurnInstruction :=
  let data1 := getEdgeData g edge1
  let data2 := getEdgeData g edge2
  let from_ramp := env.isRampClass data1.road_class
  let to_ramp := env.isRampClass data2.road_class
  if node_u == node_w then ⟨TurnType.Turn, DirectionModifier.UTurn⟩
  else if data1.roundabout && data2.roundabout then
    if GetDirectedOutDegree g node_v == 1 then NO_TURN
    else ⟨TurnType.RemainRoundabout, getTurnDirection angle⟩
  else if !data1.roundabout && data2.roundabout then
    ⟨TurnType.EnterRoundabout, getTurnDirection angle⟩
  else if data1.roundabout && !data2.roundabout then
    ⟨TurnType.ExitRoundabout, getTurnDirection angle⟩
  else if !from_ramp && to_ramp then ⟨TurnType.Ramp, getTurnDirection angle⟩
  else ⟨TurnType.Turn, getTurnDirection angle⟩

/-- A turn candidate: onto edge id, validity, angle, instruction, confidence. -/
structure TurnCandidate where
  eid : Nat
  valid : Bool
  angle : Q
  instruction : TurnInstruction
  confidence : Q
deriving DecidableEq, Repr

def dummyCandidate : TurnCandidate :=
  ⟨SPECIAL_EDGEID, false, 0, ⟨TurnType.Invalid, DirectionModifier.UTurn⟩, 0⟩

/-- The three skip counters of the factory. -/
structure Counters where
  restricted : Nat
  uturns : Nat
  barriers : Nat
deriving DecidableEq, Repr

def Counters.add (a b : Counters) : Counters :=
  ⟨a.restricted + b.restricted, a.uturns + b.uturns, a.barriers + b.barriers⟩

/-- The number of edges emanating from `turn_node` whose reverse edge is not
reversed (the bidirectional-edge count of the U-turn check in
`getTurnCandidates`). -/
def bidirectionalCount (g : Graph) (turn_node : Nat) : Nat :=
  ((adjacentEdges g turn_node).filter (fun e =>
      !(getEdgeData g (FindEdge g (GetTarget g e) turn_node)).reversed)).length

/-- One iteration of the onto-edge loop of `getTurnCandidates`: computes the
candidate pushed for `onto_edge` together with the increments applied to the
three skip counters. -/
def processOnto (env : FactoryEnv) (g : Graph)
    (from_node via_eid turn_node only_restriction_to_node : Nat)
    (is_barrier_node : Bool) (onto_edge : Nat) : TurnCandidate × Counters :=
  let v0 : Bool := !(getEdgeData g onto_edge).reversed
  let to_node := GetTarget g onto_edge
  let onlyFires : Bool :=
    v0 && !(only_restriction_to_node == SPECIAL_NODEID) &&
    !(to_node == only_restriction_to_node)
  let v1 := if onlyFires then false else v0
  let r1 : Nat := if onlyFires then 1 else 0
  let vub : Bool × Nat × Nat :=
    if v1 then
      if is_barrier_node then
        if !(from_node == to_node) then (false, 0, 1) else (v1, 0, 0)
      else
        if from_node == to_node && decide (GetOutDegree g turn_node > 1) then
          if decide (bidirectionalCount g turn_node > 1) then (false, 1, 0)
          else (v1, 0, 0)
        else (v1, 0, 0)
    else (v1, 0, 0)
  let v2 := vub.1
  let genericFires : Bool :=
    env.isTurnRestricted from_node turn_node to_node &&
    (only_restriction_to_node == SPECIAL_NODEID) &&
    !(to_node == only_restriction_to_node)
  let v3 := if genericFires then false else v2
  let r3 := if genericFires then r1 + 1 else r1
  let angle := env.angleOf from_node via_eid turn_node onto_edge to_node
  let turn := AnalyzeTurn env g from_node via_eid turn_node onto_edge to_node angle
  let conf0 := env.turnConfidence angle turn
  let conf := if v3 then conf0 else conf0 * ((4 : Q)/5)
  (⟨onto_edge, v3, angle, turn, conf⟩, ⟨r3, vub.2.1, vub.2.2⟩)

/-- The roundabout-entry reclassification applied to every candidate when the
intersection has both a valid non-roundabout turn and a (detected) roundabout
entry: `EnterRotary` becomes `EnterRotaryAtExit` and `EnterRoundabout`
becomes `EnterRoundaboutAtExit`. -/
def reclassifyEntry (c : TurnCandidate) : TurnCandidate :=
  if entersRoundaboutB c.instruction then
    let t0 := c.instruction.type
    let t1 := if t0 == TurnType.EnterRotary then TurnType.EnterRotaryAtExit else t0
    let t2 := if t1 == TurnType.EnterRoundabout then TurnType.EnterRoundaboutAtExit else t1
    { c with instruction := { c.instruction with type := t2 } }
  else c

/-- The comparator `ByAngle` sorts candidates by angle (stable). -/
def sortByAngle (cands : List TurnCandidate) : List TurnCandidate :=
  cands.insertionSort (fun a b => a.angle ≤ b.angle)

/-- `isInvalidEquivalent(this_turn, valid_turn)` of the duplicate-removal
pass. -/
def isInvalidEquivalent (cands : List TurnCandidate) (this_turn valid_turn : Nat) : Bool :=
  let ct := cands.getD this_turn dummyCandidate
  let cv := cands.getD valid_turn dummyCandidate
  if !cv.valid || ct.valid then false
  else decide (angularDeviation ct.angle cv.angle < NARROW_TURN_ANGLE)

/-- The erase loop of `getTurnCandidates`: an invalid candidate within
`NARROW_TURN_ANGLE` of a valid cyclic neighbor is erased; erasing re-examines
the same index (the source decrements and the loop increments).  `fuel` bounds
the iteration count (each step either advances the index or shortens the
list, so `2 * length + 1` fuel reproduces the source loop exactly). -/
def dedupGo : Nat → List TurnCandidate → Nat → List TurnCandidate
  | 0, cands, _ => cands
  | fuel + 1, cands, index =>
    if index < cands.length then
      let n := cands.length
      let r := (index + n - 1) % n
      let l := (index + 1) % n
      if isInvalidEquivalent cands index r || isInvalidEquivalent cands index l then
        dedupGo fuel (cands.eraseIdx index) index
      else
        dedupGo fuel cands (index + 1)
    else cands

/-- Duplicate removal over the sorted candidate list. -/
def removeInvalidEquivalents (cands : List TurnCandidate) : List TurnCandidate :=
  dedupGo (2 * cands.length + 1) cands 0

/-- `getTurnCandidates(from_node, via_eid)`.  The boolean
`has_roundabout_entry_init` models the indeterminate initial value of the
uninitialized local `has_roundabout_entry` of the source (the variable is
declared without an initializer and only conditionally assigned `true`, so
its initial value is whatever garbage is on the stack).  Returns the final
candidate list and the increments to the three skip counters. -/
def getTurnCandidates (env : FactoryEnv) (g : Graph) (has_roundabout_entry_init : Bool)
    (from_node via_eid : Nat) : List TurnCandidate × Counters :=
  let turn_node := GetTarget g via_eid
  let only_restriction_to_node := env.onlyTurnTarget from_node turn_node
  let is_barrier_node := env.isBarrier turn_node
  let results := (adjacentEdges g turn_node).map
    (processOnto env g from_node via_eid turn_node only_restriction_to_node is_barrier_node)
  let cands := results.map (fun r => r.1)
  let counters := results.foldl (fun a r => Counters.add a r.2) ⟨0, 0, 0⟩
  let has_non_roundabout :=
    cands.any (fun c => c.valid && !(entersRoundaboutB c.instruction))
  let has_roundabout_entry :=
    has_roundabout_entry_init || cands.any (fun c => c.valid && entersRoundaboutB c.instruction)
  let cands1 := if has_non_roundabout && has_roundabout_entry
    then cands.map reclassifyEntry else cands
  (removeInvalidEquivalents (sortByAngle cands1), counters)

/-! ## RenumberEdges -/

/-- The result of `RenumberEdges`: the graph edges with assigned forward ids,
the expanded-node weight vector `m_edge_based_node_weights`, and the returned
`numbered_edges_count` (so `m_max_edge_id = count - 1`). -/
structure RenumberResult where
  edges : List NBEdge
  weights : List Int
  count : Nat
deriving DecidableEq, Repr

/-- One iteration of the `RenumberEdges` loop body at edge index `i`:
reversed edges are skipped; a forward edge pushes
`distance + u_turn_penalty` onto the weight vector and receives
`edge_id = counter`, and the counter is incremented. -/
def renumberVisit (p : SpeedProfile) (st : RenumberResult) (i : Nat) : RenumberResult :=
  match st.edges.get? i with
  | none => st
  | some e =>
    if e.data.reversed then st
    else
      { edges := st.edges.set i { e with data := { e.data with edge_id := st.count } },
        weights := st.weights ++ [(e.data.distance : Int) + p.u_turn_penalty],
        count := st.count + 1 }

/-- The traversal order of `RenumberEdges`: all nodes in id order, and for
each node its adjacent edges in range order. -/
def renumberOrder (g : Graph) : List Nat :=
  (List.range g.numNodes).flatMap (adjacentEdges g)

/-- `RenumberEdges`: walks all source nodes in id order and numbers every
non-reversed adjacent edge. -/
def RenumberEdges (g : Graph) (p : SpeedProfile) : RenumberResult :=
  (renumberOrder g).foldl (renumberVisit p) ⟨g.edges, [], 0⟩

/-- The graph after `RenumberEdges` has run (same topology, ids assigned). -/
def renumberedGraph (g : Graph) (p : SpeedProfile) : Graph :=
  ⟨g.numNodes, (RenumberEdges g p).edges⟩

/-! ## Expanded nodes -/

/-- An edge-based (expanded) node, one per geometry segment of an undirected
source edge pair; fields in the order of the `emplace_back` call of
`InsertEdgeBasedNode`. -/
structure ExpandedNode where
  forward_edge_id : Nat
  reverse_edge_id : Nat
  u : Nat
  v : Nat
  name_id : Nat
  forward_geometry_pos : Nat
  reverse_geometry_pos : Nat
  is_tiny_component : Bool
  component_id : Nat
  segment_index : Nat
  forward_travel_mode : Nat
  backward_travel_mode : Nat
deriving DecidableEq, Repr

/-- The mutable state threaded through `GenerateEdgeExpandedNodes`:
the expanded-node weight vector, the expanded-node list, and the
start-point flag vector. -/
structure NodesState where
  weights : List Int
  nodes : List ExpandedNode
  startpoints : List Bool
deriving DecidableEq, Repr

/-- The geometry loop of `InsertEdgeBasedNode`: one expanded node per
compressed geometry entry, the running source coordinate advancing to each
entry target. -/
def expandGeometry (forward_data reverse_data : EdgeData) (pos1 pos2 : Nat) :
    Nat → Nat → List (Nat × Nat) → List ExpandedNode
  | _, _, [] => []
  | src, i, gentry :: rest =>
    ⟨forward_data.edge_id, reverse_data.edge_id, src, gentry.1, forward_data.name_id,
      pos1, pos2, false, INVALID_COMPONENTID, i,
      forward_data.travel_mode, reverse_data.travel_mode⟩ ::
      expandGeometry forward_data reverse_data pos1 pos2 gentry.1 (i + 1) rest

/-- `InsertEdgeBasedNode(node_u, node_v)`: looks up both directional edges of
the pair; if both are unroutable (`edge_id == SPECIAL`) nothing happens; if
only the reverse side is unroutable the weight slot of the forward id is set
to `INVALID_EDGE_WEIGHT`; then one expanded node and start-point flag per
forward geometry entry is appended. -/
def InsertEdgeBasedNode (env : FactoryEnv) (g : Graph) (st : NodesState)
    (node_u node_v : Nat) : NodesState :=
  let edge_id_1 := FindEdge g node_u node_v
  let forward_data := getEdgeData g edge_id_1
  let edge_id_2 := FindEdge g node_v node_u
  let reverse_data := getEdgeData g edge_id_2
  if forward_data.edge_id == SPECIAL_NODEID && reverse_data.edge_id == SPECIAL_NODEID then st
  else
    let weights1 :=
      if !(forward_data.edge_id == SPECIAL_NODEID) && reverse_data.edge_id == SPECIAL_NODEID
      then st.weights.set forward_data.edge_id INVALID_EDGE_WEIGHT
      else st.weights
    let forward_geometry := env.geomFwd edge_id_1
    let newNodes := expandGeometry forward_data reverse_data
      (env.geomPos edge_id_1) (env.geomPos edge_id_2) node_u 0 forward_geometry
    let newSps := forward_geometry.map
      (fun _ => forward_data.startpoint || reverse_data.startpoint)
    { weights := weights1, nodes := st.nodes ++ newNodes,
      startpoints := st.startpoints ++ newSps }

/-- `GenerateEdgeExpandedNodes`: every undirected pair is processed once
(`node_u > node_v` skipped); when the forward direction is unroutable the
call is made with swapped endpoints. -/
def GenerateEdgeExpandedNodes (env : FactoryEnv) (g : Graph)
    (weights0 : List Int) : NodesState :=
  (List.range g.numNodes).foldl (fun st node_u =>
    (adjacentEdges g node_u).foldl (fun st e1 =>
      let edge_data := getEdgeData g e1
      let node_v := GetTarget g e1
      if node_u > node_v then st
      else if edge_data.edge_id == SPECIAL_NODEID then
        InsertEdgeBasedNode env g st node_v node_u
      else
        InsertEdgeBasedNode env g st node_u node_v) st)
    ⟨weights0, [], []⟩

/-! ## optimizeCandidates -/

def getInstrAt (cands : List TurnCandidate) (i : Nat) : TurnInstruction :=
  (cands.getD i dummyCandidate).instruction

def getAngleAt (cands : List TurnCandidate) (i : Nat) : Q :=
  (cands.getD i dummyCandidate).angle

/-- In-place mutation of the instruction of candidate `i`. -/
def modifyInstr (cands : List TurnCandidate) (i : Nat)
    (f : TurnInstruction → TurnInstruction) : List TurnCandidate :=
  match cands.get? i with
  | some c => cands.set i { c with instruction := f c.instruction }
  | none => cands

/-- `checkForkAndEnd`: classifies a three-candidate intersection headed by the
U-turn as `Fork`, `EndOfRoad`, or `Invalid` (no change). -/
def checkForkAndEnd (g : Graph) (via_eid : Nat) (cands : List TurnCandidate) : TurnType :=
  if !(cands.length == 3) ||
     !((getInstrAt cands 0).direction_modifier == DirectionModifier.UTurn) then
    TurnType.Invalid
  else if isOnRoundaboutB (getInstrAt cands 1) then TurnType.Invalid
  else
    let rc0 := (getEdgeData g via_eid).road_class
    let rc1 := (getEdgeData g (cands.getD 1 dummyCandidate).eid).road_class
    let rc2 := (getEdgeData g (cands.getD 2 dummyCandidate).eid).road_class
    if decide (angularDeviation (getAngleAt cands 1) STRAIGHT_ANGLE < NARROW_TURN_ANGLE) &&
       decide (angularDeviation (getAngleAt cands 2) STRAIGHT_ANGLE < NARROW_TURN_ANGLE) then
      if !(rc0 == rc1) || !(rc1 == rc2) then TurnType.Invalid
      else if (cands.getD 1 dummyCandidate).valid && (cands.getD 2 dummyCandidate).valid then
        TurnType.Fork
      else TurnType.Invalid
    else if decide (angularDeviation (getAngleAt cands 1) 90 < NARROW_TURN_ANGLE) &&
            decide (angularDeviation (getAngleAt cands 2) 270 < NARROW_TURN_ANGLE) then
      TurnType.EndOfRoad
    else TurnType.Invalid

/-- `handleForkAndEnd`: rewrites candidates 1 and 2 to the fork or end-of-road
instructions. -/
def handleForkAndEnd (t : TurnType) (cands : List TurnCandidate) : List TurnCandidate :=
  let c1 := modifyInstr cands 1 (fun _ =>
    ⟨t, if t == TurnType.Fork then DirectionModifier.SlightRight else DirectionModifier.Right⟩)
  modifyInstr c1 2 (fun _ =>
    ⟨t, if t == TurnType.Fork then DirectionModifier.SlightLeft else DirectionModifier.Left⟩)

/-- The second loop of `optimizeRamps`: slight ramp candidates to the right of
the continue candidate become `SlightRight`, those to its left `SlightLeft`. -/
def rampAdjust (continue_eid : Nat) : List TurnCandidate → Bool → List TurnCandidate
  | [], _ => []
  | c :: rest, toRight =>
    if c.eid == continue_eid then c :: rampAdjust continue_eid rest false
    else if !(c.instruction.type == TurnType.Ramp) then
      c :: rampAdjust continue_eid rest toRight
    else if isSlightModifier c.instruction.direction_modifier then
      { c with instruction := { c.instruction with direction_modifier :=
          if toRight then DirectionModifier.SlightRight else DirectionModifier.SlightLeft } } ::
        rampAdjust continue_eid rest toRight
    else c :: rampAdjust continue_eid rest toRight

/-- `optimizeRamps`: finds the first non-U-turn candidate whose name matches
the incoming edge; if the via road is a ramp class and the match is near
straight, the match is marked `Suppressed` (the source assigns the bare type
`TurnType::Suppressed`; the implicit constructor lives in a missing header and
per the spec only the type is marked).  Then slight ramp modifiers are
reoriented around the match. -/
def optimizeRamps (env : FactoryEnv) (g : Graph) (via_edge : Nat)
    (cands : List TurnCandidate) : List TurnCandidate :=
  let in_data := getEdgeData g via_edge
  let idxOpt := (List.range cands.length).find? (fun i =>
    let c := cands.getD i dummyCandidate
    !(c.instruction.direction_modifier == DirectionModifier.UTurn) &&
    (getEdgeData g c.eid).name_id == in_data.name_id)
  match idxOpt with
  | none => cands
  | some k =>
    let ck := cands.getD k dummyCandidate
    let cands1 :=
      if decide (angularDeviation ck.angle STRAIGHT_ANGLE < NARROW_TURN_ANGLE) &&
         env.isRampClass in_data.road_class
      then modifyInstr cands k (fun i => { i with type := TurnType.Suppressed })
      else cands
    rampAdjust ck.eid cands1 true

/-- The local `keepStraight` lambda of the conflict pass. -/
def keepStraightQ (angle : Q) : Bool := decide (Q.abs (angle - 180) < 5)

/-- Modelled from the spec, section 4.6: rotating a direction modifier one
step toward the right or the left of the cyclic modifier circle
(UTurn, SharpRight, Right, SlightRight, Straight, SlightLeft, Left,
SharpLeft). -/
def shiftModifier (toRight : Bool) (m : DirectionModifier) : DirectionModifier :=
  if toRight then
    match m with
    | DirectionModifier.UTurn => DirectionModifier.SharpLeft
    | DirectionModifier.SharpRight => DirectionModifier.UTurn
    | DirectionModifier.Right => DirectionModifier.SharpRight
    | DirectionModifier.SlightRight => DirectionModifier.Right
    | DirectionModifier.Straight => DirectionModifier.SlightRight
    | DirectionModifier.SlightLeft => DirectionModifier.Straight
    | DirectionModifier.Left => DirectionModifier.SlightLeft
    | DirectionModifier.SharpLeft => DirectionModifier.Left
  else
    match m with
    | DirectionModifier.UTurn => DirectionModifier.SharpRight
    | DirectionModifier.SharpRight => DirectionModifier.Right
    | DirectionModifier.Right => DirectionModifier.SlightRight
    | DirectionModifier.SlightRight => DirectionModifier.Straight
    | DirectionModifier.Straight => DirectionModifier.SlightLeft
    | DirectionModifier.SlightLeft => DirectionModifier.Left
    | DirectionModifier.Left => DirectionModifier.SharpLeft
    | DirectionModifier.SharpLeft => DirectionModifier.UTurn

/-- Modelled from the spec, section 4.6: `resolve(self, neighbor, toward)`
rotates the modifier of `self` one step toward `toward` unless the rotated
modifier collides with the modifier of `neighbor`; `none` models the failing
call. -/
def tryResolve (cands : List TurnCandidate) (selfIdx neighborIdx : Nat)
    (toRight : Bool) : Option (List TurnCandidate) :=
  let shifted := shiftModifier toRight (getInstrAt cands selfIdx).direction_modifier
  if shifted == (getInstrAt cands neighborIdx).direction_modifier then none
  else some (modifyInstr cands selfIdx (fun i => { i with direction_modifier := shifted }))

/-- Modelled from the spec, section 4.6: `resolveTransitive` rotates both
`self` and `neighbor` one step outward when the rotated neighbor does not
collide with `neighbor2`. -/
def tryResolveTransitive (cands : List TurnCandidate)
    (selfIdx neighborIdx neighbor2Idx : Nat) (toRight : Bool) :
    Option (List TurnCandidate) :=
  let nShift := shiftModifier toRight (getInstrAt cands neighborIdx).direction_modifier
  if nShift == (getInstrAt cands neighbor2Idx).direction_modifier then none
  else
    let sShift := shiftModifier toRight (getInstrAt cands selfIdx).direction_modifier
    some (modifyInstr
      (modifyInstr cands selfIdx (fun i => { i with direction_modifier := sShift }))
      neighborIdx (fun i => { i with direction_modifier := nShift }))

/-- The scan extending a conflict region to the left while the next
instruction conflicts with the seed. -/
def findConflictEnd (env : FactoryEnv) (cands : List TurnCandidate)
    (seed : TurnInstruction) (n : Nat) : Nat → Nat → Nat → Nat × Nat
  | 0, endIdx, size => (endIdx, size)
  | fuel + 1, endIdx, size =>
    if env.isConflictI (getInstrAt cands ((endIdx + 1) % n)) seed && decide (size < n) then
      findConflictEnd env cands seed n fuel ((endIdx + 1) % n) (size + 1)
    else (endIdx, size)

/-- The adjustment step shared by the two straightening resolutions of the
two-candidate conflict branch: keep the end when its angle is already near
straight, otherwise try the `resolve` call; the counter counts the kept or
resolved ends. -/
def conflictAdjust (s : List TurnCandidate) (r : Nat) (selfIdx neighborIdx : Nat)
    (toRight : Bool) : List TurnCandidate × Nat :=
  if keepStraightQ (getAngleAt s selfIdx) then (s, r + 1)
  else
    match tryResolve s selfIdx neighborIdx toRight with
    | some s2 => (s2, r + 1)
    | none => (s, r)

/-- Phase one of the two-candidate conflict branch (source lines 757-787): when
the seed modifier is straight and neither outer neighbor is slight, both region
ends are straightened, and the branch returns early when at least one resolve
succeeded and an end is still not near straight. -/
def conflictS2Phase1 (cands0 : List TurnCandidate)
    (beginIdx endIdx leftOfEnd rightOfBegin : Nat) : List TurnCandidate × Bool :=
  if (getInstrAt cands0 beginIdx).direction_modifier == DirectionModifier.Straight then
    if !((getInstrAt cands0 leftOfEnd).direction_modifier == DirectionModifier.SlightLeft) &&
       !((getInstrAt cands0 rightOfBegin).direction_modifier == DirectionModifier.SlightRight) then
      let s1r1 := conflictAdjust cands0 0 endIdx leftOfEnd false
      let s2r2 := conflictAdjust s1r1.1 s1r1.2 beginIdx rightOfBegin true
      if decide (s2r2.2 ≥ 1) &&
         (!keepStraightQ (getAngleAt s2r2.1 beginIdx) ||
          !keepStraightQ (getAngleAt s2r2.1 endIdx)) then
        (s2r2.1, true)
      else (s2r2.1, false)
    else (cands0, false)
  else (cands0, false)

/-- Phase two of the two-candidate conflict branch (source lines 789-806): the
lower-confidence end is shifted outward first, the other end on failure. -/
def conflictS2Phase2 (s : List TurnCandidate)
    (beginIdx endIdx leftOfEnd rightOfBegin : Nat) : List TurnCandidate × Bool :=
  if decide ((s.getD beginIdx dummyCandidate).confidence <
             (s.getD endIdx dummyCandidate).confidence) then
    match tryResolve s beginIdx rightOfBegin true with
    | some s2 => (s2, true)
    | none =>
      match tryResolve s endIdx leftOfEnd false with
      | some s2 => (s2, true)
      | none => (s, false)
  else
    match tryResolve s endIdx leftOfEnd false with
    | some s2 => (s2, true)
    | none =>
      match tryResolve s beginIdx rightOfBegin true with
      | some s2 => (s2, true)
      | none => (s, false)

/-- Phase three of the two-candidate conflict branch (source lines 808-827):
for a slight or sharp seed the transitive shift is applied toward the side the
seed leans to. -/
def conflictS2Phase3 (s2 : List TurnCandidate)
    (beginIdx endIdx leftOfEnd rightOfBegin rr ll : Nat) : List TurnCandidate :=
  let ti := getInstrAt s2 beginIdx
  if isSlightTurnB ti || isSharpTurnB ti then
    let toRight := ti.direction_modifier == DirectionModifier.SlightRight ||
                   ti.direction_modifier == DirectionModifier.SharpLeft
    if toRight then (tryResolveTransitive s2 beginIdx rightOfBegin rr true).getD s2
    else (tryResolveTransitive s2 endIdx leftOfEnd ll false).getD s2
  else s2

def conflictSize2 (cands0 : List TurnCandidate)
    (beginIdx endIdx leftOfEnd rightOfBegin rr ll : Nat) : List TurnCandidate :=
  let p1 := conflictS2Phase1 cands0 beginIdx endIdx leftOfEnd rightOfBegin
  if p1.2 then p1.1
  else
    let p2 := conflictS2Phase2 p1.1 beginIdx endIdx leftOfEnd rightOfBegin
    if p2.2 then p2.1
    else conflictS2Phase3 p2.1 beginIdx endIdx leftOfEnd rightOfBegin rr ll

/-- Phase one of the three-or-more conflict branch: the region seed is shifted
outward to the right, falling back to the transitive shift when the seed is
slight or sharp. -/
def conflictS3Phase1 (cands0 : List TurnCandidate)
    (beginIdx endIdx leftOfEnd rightOfBegin rr ll : Nat) : List TurnCandidate :=
  match tryResolve cands0 beginIdx rightOfBegin true with
  | some s => s
  | none =>
    let ti := getInstrAt cands0 beginIdx
    if isSlightTurnB ti then
      (tryResolveTransitive cands0 beginIdx rightOfBegin rr true).getD cands0
    else if isSharpTurnB ti then
      (tryResolveTransitive cands0 endIdx leftOfEnd ll false).getD cands0
    else cands0

/-- Phase two of the three-or-more conflict branch: the region end is shifted
outward to the left, falling back to the transitive shift. -/
def conflictS3Phase2 (s1 : List TurnCandidate)
    (beginIdx endIdx leftOfEnd rightOfBegin rr ll : Nat) : List TurnCandidate :=
  match tryResolve s1 endIdx leftOfEnd false with
  | some s => s
  | none =>
    let ti := getInstrAt s1 beginIdx
    if isSlightTurnB ti then
      (tryResolveTransitive s1 endIdx leftOfEnd ll false).getD s1
    else if isSharpTurnB ti then
      (tryResolveTransitive s1 beginIdx rightOfBegin rr true).getD s1
    else s1

/-- The conflict handling for regions of three or more candidates (source
lines 829-871): the outermost two candidates are shifted outward, falling back
to the transitive shift depending on the seed being slight or sharp. -/
def conflictSize3 (cands0 : List TurnCandidate)
    (beginIdx endIdx leftOfEnd rightOfBegin rr ll : Nat) : List TurnCandidate :=
  conflictS3Phase2 (conflictS3Phase1 cands0 beginIdx endIdx leftOfEnd rightOfBegin rr ll)
    beginIdx endIdx leftOfEnd rightOfBegin rr ll

/-- One iteration of the conflict loop at `turn_index`: returns the updated
candidates and the index value the source leaves in `turn_index` at the end
of the iteration (the loop then increments it). -/
def conflictStep (env : FactoryEnv) (cands : List TurnCandidate) (turn_index : Nat) :
    List TurnCandidate × Nat :=
  let n := cands.length
  let ti := getInstrAt cands turn_index
  if !(env.isBasicT ti.type) || isUturnB ti || isOnRoundaboutB ti then (cands, turn_index)
  else
    let leftIdx := (turn_index + 1) % n
    if env.isConflictI ti (getInstrAt cands leftIdx) then
      let beginIdx := turn_index
      let es := findConflictEnd env cands ti n n leftIdx 2
      let endIdx := es.1
      let csize := es.2
      let new_index := if endIdx < beginIdx then n else endIdx
      let leftOfEnd := (endIdx + 1) % n
      let rightOfBegin := (beginIdx + n - 1) % n
      let rr := (rightOfBegin + n - 1) % n
      let ll := (leftOfEnd + 1) % n
      let cands1 :=
        if csize == 2 then conflictSize2 cands beginIdx endIdx leftOfEnd rightOfBegin rr ll
        else conflictSize3 cands beginIdx endIdx leftOfEnd rightOfBegin rr ll
      (cands1, new_index)
    else (cands, turn_index)

/-- The conflict loop of `optimizeCandidates`; the turn index strictly
increases every iteration, so `length + 1` fuel reproduces the source loop. -/
def conflictLoopGo (env : FactoryEnv) : Nat → List TurnCandidate → Nat → List TurnCandidate
  | 0, cands, _ => cands
  | fuel + 1, cands, idx =>
    if idx < cands.length then
      let r := conflictStep env cands idx
      conflictLoopGo env fuel r.1 (r.2 + 1)
    else cands

/-- `optimizeCandidates`: fork/end-of-road detection, ramp optimization, the
multiple-U-turn relabeling, and the conflict pass. -/
def optimizeCandidates (env : FactoryEnv) (g : Graph) (via_eid : Nat)
    (cands : List TurnCandidate) : List TurnCandidate :=
  if cands.length ≤ 1 then cands
  else
    let t := checkForkAndEnd g via_eid cands
    if !(t == TurnType.Invalid) then handleForkAndEnd t cands
    else
      let c1 := optimizeRamps env g via_eid cands
      let n := c1.length
      let c2 :=
        if isUturnB (getInstrAt c1 0) && ((getAngleAt c1 0) == 0) then
          let cl :=
            if isUturnB (getInstrAt c1 (1 % n)) then
              modifyInstr c1 (1 % n)
                (fun i => { i with direction_modifier := DirectionModifier.SharpLeft })
            else c1
          if isUturnB (getInstrAt cl ((n - 1) % n)) then
            modifyInstr cl ((n - 1) % n)
              (fun i => { i with direction_modifier := DirectionModifier.SharpRight })
          else cl
        else c1
      conflictLoopGo env (n + 1) c2 0

/-! ## suppressTurns -/

/-- `isObviousChoice(via_eid, turn_index, turn_candidates)`. -/
def isObviousChoice (env : FactoryEnv) (g : Graph) (via_eid : Nat) (turn_index : Nat)
    (cands : List TurnCandidate) : Bool :=
  let n := cands.length
  let candidate := cands.getD turn_index dummyCandidate
  let in_data := getEdgeData g via_eid
  let out_data := getEdgeData g candidate.eid
  let cleft := cands.getD ((turn_index + 1) % n) dummyCandidate
  let cright := cands.getD ((turn_index + n - 1) % n) dummyCandidate
  let hasValidGap : Bool :=
    let angle_left : Q :=
      if cleft.angle > 180 then angularDeviation cleft.angle STRAIGHT_ANGLE else 180
    let angle_right : Q :=
      if cright.angle < 180 then angularDeviation cright.angle STRAIGHT_ANGLE else 180
    let self_angle := angularDeviation candidate.angle STRAIGHT_ANGLE
    decide (angularDeviation candidate.angle STRAIGHT_ANGLE < NARROW_TURN_ANGLE) &&
      (if candidate.angle < STRAIGHT_ANGLE then
        decide (angle_right > self_angle) &&
        decide (angle_left / self_angle > DISTINCTION_FACTOR)
       else
        decide (angle_left > self_angle) &&
        decide (angle_right / self_angle > DISTINCTION_FACTOR))
  let firstBlock : Bool :=
    if !(env.isLowPriorityClass out_data.road_class) then
      (List.range n).all (fun i =>
        if i == turn_index || (cands.getD i dummyCandidate).angle == 0 then true
        else env.isLowPriorityClass
          (getEdgeData g (cands.getD i dummyCandidate).eid).road_class)
    else false
  if firstBlock then true
  else
    n == 1 ||
    (n == 2 && isUturnB cleft.instruction) ||
    decide (angularDeviation candidate.angle STRAIGHT_ANGLE <
      MAXIMAL_ALLOWED_NO_TURN_DEVIATION) ||
    hasValidGap ||
    (!(in_data.name_id == 0) && in_data.name_id == out_data.name_id &&
      decide (angularDeviation candidate.angle STRAIGHT_ANGLE < NARROW_TURN_ANGLE / 2))

/-- The body of the main loop of `suppressTurns` at `turn_index`, threading
the candidate list (earlier iterations may already have modified it). -/
def suppressStep (env : FactoryEnv) (g : Graph) (via_eid : Nat)
    (has_obvious_with_same_name : Bool) (obvious_with_same_name_angle : Q)
    (cands : List TurnCandidate) (turn_index : Nat) : List TurnCandidate :=
  let candidate := cands.getD turn_index dummyCandidate
  if !(env.isBasicT candidate.instruction.type) then cands
  else
    let in_data := getEdgeData g via_eid
    let out_data := getEdgeData g candidate.eid
    let cands1 :=
      if out_data.name_id == in_data.name_id && !(in_data.name_id == 0) &&
         !(candidate.instruction.direction_modifier == DirectionModifier.UTurn) &&
         !has_obvious_with_same_name then
        modifyInstr cands turn_index (fun i => { i with type := TurnType.Continue })
      else cands
    let cand1 := cands1.getD turn_index dummyCandidate
    if cand1.valid && !(isUturnB cand1.instruction) then
      let n := cands1.length
      let cleft := cands1.getD ((turn_index + 1) % n) dummyCandidate
      let cright := cands1.getD ((turn_index + n - 1) % n) dummyCandidate
      let cands2 :=
        if (!(isSlightModifier (getTurnDirection cleft.angle)) || !cleft.valid) &&
           (!(isSlightModifier (getTurnDirection cright.angle)) || !cright.valid) &&
           decide (angularDeviation cand1.angle STRAIGHT_ANGLE < FUZZY_STRAIGHT_ANGLE) then
          modifyInstr cands1 turn_index
            (fun i => { i with direction_modifier := DirectionModifier.Straight })
        else cands1
      if in_data.travel_mode == out_data.travel_mode then
        if isObviousChoice env g via_eid turn_index cands2 then
          if in_data.name_id == out_data.name_id then
            modifyInstr cands2 turn_index (fun i => { i with type := TurnType.Suppressed })
          else if !has_obvious_with_same_name then
            if env.isRampClass in_data.road_class &&
               !(env.isRampClass out_data.road_class) then
              modifyInstr cands2 turn_index (fun i =>
                ⟨TurnType.Merge, mirrorDirectionModifier i.direction_modifier⟩)
            else if env.canBeSuppressedT
                ((cands2.getD turn_index dummyCandidate).instruction.type) then
              modifyInstr cands2 turn_index (fun i => { i with type := TurnType.NewName })
            else cands2
          else if decide ((cands2.getD turn_index dummyCandidate).angle <
              obvious_with_same_name_angle) then
            modifyInstr cands2 turn_index
              (fun i => { i with direction_modifier := DirectionModifier.SlightRight })
          else
            modifyInstr cands2 turn_index
              (fun i => { i with direction_modifier := DirectionModifier.SlightLeft })
        else if (cands2.getD turn_index dummyCandidate).instruction.direction_modifier ==
                DirectionModifier.Straight && has_obvious_with_same_name then
          if decide ((cands2.getD turn_index dummyCandidate).angle <
              obvious_with_same_name_angle) then
            modifyInstr cands2 turn_index
              (fun i => { i with direction_modifier := DirectionModifier.SlightRight })
          else
            modifyInstr cands2 turn_index
              (fun i => { i with direction_modifier := DirectionModifier.SlightLeft })
        else cands2
      else cands2
    else cands1

/-- `suppressTurns`: the size-3 low-priority special case, the
obvious-with-same-name scan, and the main suppression loop. -/
def suppressTurns (env : FactoryEnv) (g : Graph) (via_eid : Nat)
    (cands : List TurnCandidate) : List TurnCandidate :=
  let size3 : Option (List TurnCandidate) :=
    if cands.length == 3 then
      let c1 := cands.getD 1 dummyCandidate
      let c2 := cands.getD 2 dummyCandidate
      if env.isLowPriorityClass (getEdgeData g c1.eid).road_class &&
         !(env.isLowPriorityClass (getEdgeData g c2.eid).road_class) then
        if decide (angularDeviation c2.angle STRAIGHT_ANGLE < NARROW_TURN_ANGLE) then
          some (if (getEdgeData g c2.eid).name_id == (getEdgeData g via_eid).name_id then
              modifyInstr cands 2 (fun _ => NO_TURN)
            else
              modifyInstr cands 2 (fun i => { i with type := TurnType.NewName }))
        else none
      else if env.isLowPriorityClass (getEdgeData g c2.eid).road_class &&
              !(env.isLowPriorityClass (getEdgeData g c1.eid).road_class) then
        if decide (angularDeviation c1.angle STRAIGHT_ANGLE < NARROW_TURN_ANGLE) then
          some (if (getEdgeData g c1.eid).name_id == (getEdgeData g via_eid).name_id then
              modifyInstr cands 1 (fun _ => NO_TURN)
            else
              modifyInstr cands 1 (fun i => { i with type := TurnType.NewName }))
        else none
      else none
    else none
  match size3 with
  | some r => r
  | none =>
    let in_data := getEdgeData g via_eid
    let obvIdx := (List.range cands.length).find? (fun i =>
      (getEdgeData g (cands.getD i dummyCandidate).eid).name_id == in_data.name_id &&
      isObviousChoice env g via_eid i cands)
    let has_obvious := obvIdx.isSome
    let obvious_angle : Q :=
      match obvIdx with
      | some i => (cands.getD i dummyCandidate).angle
      | none => 0
    (List.range cands.length).foldl
      (suppressStep env g via_eid has_obvious obvious_angle) cands

/-- The assertion at the head of the size-3 branch of `suppressTurns`
(source line 946): the first candidate carries the `UTurn` modifier whenever
the list has exactly three candidates. -/
def suppressSizeThreeAssertHolds (cands : List TurnCandidate) : Bool :=
  !(cands.length == 3) ||
  (getInstrAt cands 0).direction_modifier == DirectionModifier.UTurn

/-- The assertion inside `isObviousChoice` (source lines 913-914): whenever
the inspected candidate is not of a low-priority road class, the first
candidate is the `(Turn, UTurn)` instruction. -/
def obviousChoiceAssertHolds (env : FactoryEnv) (g : Graph)
    (cands : List TurnCandidate) (turn_index : Nat) : Bool :=
  env.isLowPriorityClass
    (getEdgeData g (cands.getD turn_index dummyCandidate).eid).road_class ||
  ((getInstrAt cands 0).type == TurnType.Turn &&
   (getInstrAt cands 0).direction_modifier == DirectionModifier.UTurn)

/-! ## GenerateEdgeExpandedEdges -/

/-- An `OriginalEdgeData` record: geometry position of the via edge, name id,
final instruction, travel mode. -/
structure OriginalEdgeData where
  via_position : Nat
  name_id : Nat
  instruction : TurnInstruction
  travel_mode : Nat
deriving DecidableEq, Repr

/-- An edge of the edge-expanded graph, fields in the order of the
`EdgeBasedEdge` emplacement. -/
structure ExpandedEdge where
  source : Nat
  target : Nat
  sequential_id : Nat
  weight : Nat
  forward : Bool
  backward : Bool
deriving DecidableEq, Repr

/-- The output state threaded through `GenerateEdgeExpandedEdges`: the
expanded edge list, the original-edge-data stream already written to the
file body, the in-memory buffer not yet flushed, and
`original_edges_counter`. -/
structure GenState where
  edges : List ExpandedEdge
  stream : List OriginalEdgeData
  buffer : List OriginalEdgeData
  counter : Nat
deriving DecidableEq, Repr

/-- The flush threshold `1024 * 1024 * 10` of the record buffer. -/
def flushThreshold : Nat := 10485760

/-- `FlushVectorToStream`: appends the buffer to the file body and clears it
(no write for an empty buffer). -/
def FlushVectorToStream (stream buffer : List OriginalEdgeData) :
    List OriginalEdgeData × List OriginalEdgeData :=
  if buffer.isEmpty then (stream, buffer) else (stream ++ buffer, [])

/-- The body of the innermost loop of `GenerateEdgeExpandedEdges` for one
surviving candidate: invalid candidates are skipped; otherwise the final
weight is accumulated in unsigned 32-bit arithmetic
(via distance, then the traffic signal penalty, then the U-turn penalty,
then the hook turn penalty), one `OriginalEdgeData` record is appended
(flushing the buffer beyond the threshold), and the expanded edge is
emplaced. -/
def emitTurn (env : FactoryEnv) (g : Graph) (via_eid node_v : Nat)
    (st : GenState) (turn : TurnCandidate) : GenState :=
  if !turn.valid then st
  else
    let edge_data1 := getEdgeData g via_eid
    let edge_data2 := getEdgeData g turn.eid
    let distance0 := edge_data1.distance % 4294967296
    let distance1 :=
      if env.isTrafficLight node_v then u32add distance0 env.profile.traffic_signal_penalty
      else distance0
    let turn_penalty := GetTurnPenalty env turn.angle
    let distance2 :=
      if isUturnB turn.instruction then u32add distance1 env.profile.u_turn_penalty
      else distance1
    let distance3 := u32add distance2 turn_penalty
    let oed : OriginalEdgeData :=
      ⟨env.geomPos via_eid, edge_data1.name_id, turn.instruction, edge_data1.travel_mode⟩
    let buffer1 := st.buffer ++ [oed]
    let counter1 := st.counter + 1
    let sb :=
      if buffer1.length > flushThreshold then FlushVectorToStream st.stream buffer1
      else (st.stream, buffer1)
    let e : ExpandedEdge :=
      ⟨edge_data1.edge_id, edge_data2.edge_id, st.edges.length, distance3, true, false⟩
    { edges := st.edges ++ [e], stream := sb.1, buffer := sb.2, counter := counter1 }

/-- The candidate list reaching the emission loop for `(node_u, via_eid)`:
`getTurnCandidates`, then `optimizeCandidates`, then `suppressTurns`. -/
def pipelineCandidates (env : FactoryEnv) (g : Graph) (garbage : Bool)
    (node_u via_eid : Nat) : List TurnCandidate :=
  suppressTurns env g via_eid
    (optimizeCandidates env g via_eid (getTurnCandidates env g garbage node_u via_eid).1)

/-- The observable output of `GenerateEdgeExpandedEdges`: the expanded edge
list, the full record body of the original-edge-data file after the final
flush, the `u32` count overwritten at offset 0 (`none` when
`boost::numeric_cast<unsigned>` would throw), and the three skip counters. -/
structure GenOutput where
  edges : List ExpandedEdge
  records : List OriginalEdgeData
  header : Option Nat
  counters : Counters
deriving DecidableEq, Repr

/-- The body of the via-edge loop of `GenerateEdgeExpandedEdges`: reversed
via edges are skipped; otherwise the candidate pipeline runs and every
surviving candidate is emitted. -/
def genInner (env : FactoryEnv) (g : Graph) (garbage : Bool) (node_u : Nat)
    (acc : GenState × Counters) (edge_form_u : Nat) : GenState × Counters :=
  if (getEdgeData g edge_form_u).reversed then acc
  else
    let r := getTurnCandidates env g garbage node_u edge_form_u
    let turn_candidates :=
      suppressTurns env g edge_form_u (optimizeCandidates env g edge_form_u r.1)
    let node_v := GetTarget g edge_form_u
    (turn_candidates.foldl (emitTurn env g edge_form_u node_v) acc.1,
     Counters.add acc.2 r.2)

/-- The body of the node loop of `GenerateEdgeExpandedEdges`. -/
def genOuter (env : FactoryEnv) (g : Graph) (garbage : Bool)
    (acc : GenState × Counters) (node_u : Nat) : GenState × Counters :=
  (adjacentEdges g node_u).foldl (genInner env g garbage node_u) acc

/-- `GenerateEdgeExpandedEdges`: loops over every non-reversed via edge of
every node, runs the candidate pipeline, emits the surviving turns, flushes
the record buffer, and overwrites the length prefix with the record count. -/
def GenerateEdgeExpandedEdges (env : FactoryEnv) (g : Graph) (garbage : Bool) : GenOutput :=
  let stc := (List.range g.numNodes).foldl (genOuter env g garbage)
    (⟨[], [], [], 0⟩, ⟨0, 0, 0⟩)
  let flushed := FlushVectorToStream stc.1.stream stc.1.buffer
  { edges := stc.1.edges,
    records := flushed.1,
    header := if stc.1.counter < 4294967296 then some stc.1.counter else none,
    counters := stc.2 }

/-! ## Specification-side formulas and views

Definitions below restate properties claimed by the spec (independently of
the step-by-step code above); the theorems relate them to the embedded
code. -/

/-- The weight formula claimed by the spec for a surviving candidate:
`via.distance`, plus `traffic_signal_penalty` when the turn node has a
traffic light, plus `u_turn_penalty` when the instruction is a U-turn, plus
the turn penalty returned by the hook for input `180 - angle` (0 when there
is no turn penalty function or the hook call fails), reduced modulo 2 to the
32nd power (the accumulation is unsigned 32-bit). -/
def claimWeight (env : FactoryEnv) (g : Graph) (via_eid node_v : Nat)
    (c : TurnCandidate) : Nat :=
  ((((getEdgeData g via_eid).distance : Int)
    + (if env.isTrafficLight node_v then env.profile.traffic_signal_penalty else 0)
    + (if isUturnB c.instruction then env.profile.u_turn_penalty else 0)
    + (if env.profile.has_turn_penalty_function then
        match env.turnHook (180 - c.angle) with
        | some p => cppTruncToInt p
        | none => 0
       else 0)) % U32MOD).toNat

/-- The expanded edge the spec predicts for the `i`-th surviving turn
`(node_u, via_eid, candidate)`: forward ids of the via and onto edges,
sequential id `i`, the claimed weight, `forward := true`,
`backward := false`. -/
def specEdge (env : FactoryEnv) (g : Graph) (i : Nat)
    (t : Nat × Nat × TurnCandidate) : ExpandedEdge :=
  ⟨(getEdgeData g t.2.1).edge_id, (getEdgeData g t.2.2.eid).edge_id, i,
   claimWeight env g t.2.1 (GetTarget g t.2.1) t.2.2, true, false⟩

/-- The expanded edges the spec predicts for a list of surviving turns,
numbered from `i`. -/
def specEdges (env : FactoryEnv) (g : Graph) :
    Nat → List (Nat × Nat × TurnCandidate) → List ExpandedEdge
  | _, [] => []
  | i, t :: rest => specEdge env g i t :: specEdges env g (i + 1) rest

/-- The `OriginalEdgeData` record the spec predicts for a surviving turn. -/
def specRecord (env : FactoryEnv) (g : Graph)
    (t : Nat × Nat × TurnCandidate) : OriginalEdgeData :=
  ⟨env.geomPos t.2.1, (getEdgeData g t.2.1).name_id, t.2.2.instruction,
   (getEdgeData g t.2.1).travel_mode⟩

/-- The surviving valid turn candidates of one via edge, tagged with the
node and the via edge. -/
def survOfEdge (env : FactoryEnv) (g : Graph) (garbage : Bool) (u e : Nat) :
    List (Nat × Nat × TurnCandidate) :=
  ((pipelineCandidates env g garbage u e).filter (fun c => c.valid)).map
    (fun c => (u, e, c))

/-- All surviving valid turn candidates of a run, in emission order:
for every node in id order, for every non-reversed via edge, the valid
candidates of the post-processed candidate list, tagged with the node and
the via edge. -/
def survivors (env : FactoryEnv) (g : Graph) (garbage : Bool) :
    List (Nat × Nat × TurnCandidate) :=
  (List.range g.numNodes).flatMap (fun u =>
    (adjacentEdges g u).flatMap (fun e =>
      if (getEdgeData g e).reversed then [] else survOfEdge env g garbage u e))

/-- Sequential emission of a list of surviving turns (the emission spine the
driver fold is proved equal to). -/
def emitAll (env : FactoryEnv) (g : Graph) :
    GenState → List (Nat × Nat × TurnCandidate) → GenState
  | st, [] => st
  | st, t :: rest =>
    emitAll env g (emitTurn env g t.2.1 (GetTarget g t.2.1) st t.2.2) rest

/-- The candidate fields never touched by the post-processing passes:
onto edge id, validity, angle, confidence (the passes only rewrite
instructions). -/
def stripC (c : TurnCandidate) : Nat × Bool × Q × Q :=
  (c.eid, c.valid, c.angle, c.confidence)

/-- The edge fields never touched by `RenumberEdges`: everything except
`edge_id`. -/
def stripId (e : NBEdge) :
    Nat × Nat × Nat × Nat × Nat × Bool × Bool × Bool × Nat :=
  (e.source, e.target, e.data.distance, e.data.name_id, e.data.travel_mode,
   e.data.reversed, e.data.roundabout, e.data.startpoint, e.data.road_class)

/-- Edge lookup in a raw edge list. -/
def edgeAt (es : List NBEdge) (i : Nat) : NBEdge := es.getD i dummyNBEdge

/-- A forward (non-reversed) edge index. -/
def isFwd (es : List NBEdge) (i : Nat) : Bool := !(edgeAt es i).data.reversed

/-- The forward subsequence of a traversal order. -/
def fwdFilter (es : List NBEdge) (L : List Nat) : List Nat := L.filter (isFwd es)

/-- The forward edge indices of a graph in renumbering order. -/
def fwdIdxs (g : Graph) : List Nat := fwdFilter g.edges (renumberOrder g)

/-- The assigned forward id of edge index `i`. -/
def idAt (es : List NBEdge) (i : Nat) : Nat := (edgeAt es i).data.edge_id

/-- Every edge source is a node of the graph. -/
def sourcesValid (g : Graph) : Prop := ∀ e ∈ g.edges, e.source < g.numNodes

/-- Every edge target is a node of the graph. -/
def targetsValid (g : Graph) : Prop := ∀ e ∈ g.edges, e.target < g.numNodes

/-- No edge is a self loop. -/
def noSelfLoops (g : Graph) : Prop := ∀ e ∈ g.edges, e.source ≠ e.target

/-! ## Concrete fixtures

Small concrete graphs and environments used to evaluate the embedded
functions at explicit inputs. -/

/-- A baseline environment: no restrictions, no barriers, no traffic lights,
zero penalties, no turn penalty function, constant confidence 1, single
geometry entry per edge, no ramp or low-priority classes, basic types `Turn`
and `Ramp`, conflicts detected on equal direction modifiers (spec section
4.6 resolves conflicts by separating colliding modifiers). -/
def baseEnv : FactoryEnv where
  onlyTurnTarget := fun _ _ => SPECIAL_NODEID
  isTurnRestricted := fun _ _ _ => false
  isBarrier := fun _ => false
  isTrafficLight := fun _ => false
  angleOf := fun _ _ _ _ _ => 0
  turnConfidence := fun _ _ => 1
  turnHook := fun _ => none
  profile := ⟨0, 0, false⟩
  geomFwd := fun _ => [(0, 0)]
  geomPos := fun e => e
  isRampClass := fun _ => false
  isLowPriorityClass := fun _ => false
  isBasicT := fun t => t == TurnType.Turn || t == TurnType.Ramp
  canBeSuppressedT := fun t => !(t == TurnType.Ramp)
  isConflictI := fun a b => a.direction_modifier == b.direction_modifier

/-- Plain non-reversed edge data with the given distance, name and
startpoint flag (edge id still unassigned). -/
def mkEdgeData (distance name_id : Nat) (startpoint : Bool) : EdgeData :=
  ⟨distance, name_id, 0, false, false, startpoint, 0, SPECIAL_EDGEID⟩

/-- A two-node bidirectional street: both directed edges routable. -/
def gTwoWay : Graph :=
  ⟨2, [⟨0, 1, mkEdgeData 100 5 true⟩, ⟨1, 0, mkEdgeData 100 5 true⟩]⟩

/-- The two-way street after renumbering with zero penalties. -/
def gTwoWayR : Graph := renumberedGraph gTwoWay baseEnv.profile

/-- Environment whose lua hook returns the negative penalty -50 for every
angle. -/
def envNegHook : FactoryEnv :=
  { baseEnv with
    profile := ⟨0, 0, true⟩,
    turnHook := fun _ => some (-(50 : Q)) }

/-- The fixture for the U-turn counter claim: a one-way street `0 to 1`
(its reverse half is reversed) meeting a bidirectional street `1 - 2` at
node 1; the angle oracle gives the U-turn angle 0 and the continuation
angle 180. -/
def gUturn : Graph :=
  ⟨3, [⟨0, 1, mkEdgeData 10 1 true⟩,
       ⟨1, 0, { mkEdgeData 10 1 true with reversed := true }⟩,
       ⟨1, 2, mkEdgeData 10 2 true⟩,
       ⟨2, 1, mkEdgeData 10 2 true⟩]⟩

def envUturn : FactoryEnv :=
  { baseEnv with angleOf := fun _ _ _ onto _ => if onto == 1 then 0 else 180 }

/-- The fixture for the roundabout-entry claims: at node 1, a bidirectional
street back to 0 (the U-turn, pruned), a bidirectional street to 2 (the
valid non-roundabout turn, angle 180), and a oneway roundabout edge to 3
pointing the wrong way (an invalid roundabout-entry candidate, angle 90);
no valid roundabout entry exists at the intersection. -/
def gRoundabout : Graph :=
  ⟨4, [⟨0, 1, mkEdgeData 10 1 true⟩,
       ⟨1, 0, mkEdgeData 10 1 true⟩,
       ⟨1, 2, mkEdgeData 10 2 true⟩,
       ⟨2, 1, mkEdgeData 10 2 true⟩,
       ⟨1, 3, { mkEdgeData 10 3 true with reversed := true, roundabout := true }⟩,
       ⟨3, 1, { mkEdgeData 10 3 true with reversed := true, roundabout := true }⟩]⟩

def envRoundabout : FactoryEnv :=
  { baseEnv with angleOf := fun _ _ _ onto _ =>
      if onto == 1 then 0 else if onto == 4 then 90 else 180 }

/-- The fixture for the assertion claim: at node 1, the street back to 0 is
oneway (so the U-turn candidate is invalid), and three valid outgoing
streets at angles 30, 180 and 330; the invalid U-turn at angle 0 lies within
35 degrees of the valid candidate at 330 and is erased by the
duplicate-removal pass. -/
def gAssert : Graph :=
  ⟨5, [⟨0, 1, mkEdgeData 10 10 true⟩,
       ⟨1, 0, { mkEdgeData 10 10 true with reversed := true }⟩,
       ⟨1, 2, mkEdgeData 10 11 true⟩,
       ⟨1, 3, mkEdgeData 10 12 true⟩,
       ⟨1, 4, mkEdgeData 10 13 true⟩]⟩

def envAssert : FactoryEnv :=
  { baseEnv with angleOf := fun _ _ _ onto _ =>
      if onto == 1 then 0 else if onto == 2 then 30 else if onto == 3 then 180 else 330 }

/-- The fixture for the expanded-node weight claim: a oneway street `0 to 1`
whose reverse half is unroutable, with U-turn penalty 3 (so the renumbered
weight slot holds 103 before the expanded-node generator runs). -/
def gOneWay : Graph :=
  ⟨2, [⟨0, 1, mkEdgeData 100 5 true⟩,
       ⟨1, 0, { mkEdgeData 100 5 true with reversed := true }⟩]⟩

def oneWayProfile : SpeedProfile := ⟨3, 0, false⟩

def gOneWayR : Graph := renumberedGraph gOneWay oneWayProfile

def envOneWay : FactoryEnv :=
  { baseEnv with
    profile := oneWayProfile,
    geomFwd := fun e => if e == 0 then [(1, 100)] else [(0, 100)] }

/-! # Lemmas: unsigned accumulation -/

theorem u32add_cast (a : Nat) (b : Int) :
    ((u32add a b : Nat) : Int) = ((a : Int) + b) % U32MOD := by
  unfold u32add
  exact Int.toNat_of_nonneg (Int.emod_nonneg _ (by norm_num [U32MOD]))

theorem u32add_wrap (z c : Int) :
    u32add ((z % U32MOD).toNat) c = ((z + c) % U32MOD).toNat := by
  simp only [u32add, U32MOD]
  omega

theorem u32add_natmod (d : Nat) (s : Int) :
    u32add (d % 4294967296) s = (((d : Int) + s) % U32MOD).toNat := by
  simp only [u32add, U32MOD]
  omega

/-- The step-by-step unsigned accumulation of `GenerateEdgeExpandedEdges`
equals the single-sum weight formula of the spec. -/
theorem emit_weight_eq (env : FactoryEnv) (g : Graph) (via_eid node_v : Nat)
    (c : TurnCandidate) :
    u32add
      (if isUturnB c.instruction then
        u32add
          (if env.isTrafficLight node_v then
            u32add ((getEdgeData g via_eid).distance % 4294967296)
              env.profile.traffic_signal_penalty
          else (getEdgeData g via_eid).distance % 4294967296)
          env.profile.u_turn_penalty
      else
        (if env.isTrafficLight node_v then
          u32add ((getEdgeData g via_eid).distance % 4294967296)
            env.profile.traffic_signal_penalty
        else (getEdgeData g via_eid).distance % 4294967296))
      (GetTurnPenalty env c.angle) = claimWeight env g via_eid node_v c := by
  have hW : claimWeight env g via_eid node_v c =
      ((((getEdgeData g via_eid).distance : Int)
        + (if env.isTrafficLight node_v then env.profile.traffic_signal_penalty else 0)
        + (if isUturnB c.instruction then env.profile.u_turn_penalty else 0)
        + GetTurnPenalty env c.angle) % U32MOD).toNat := rfl
  rw [hW]
  cases hl : env.isTrafficLight node_v <;> cases hu : isUturnB c.instruction <;>
    simp only [if_pos, if_neg, Bool.false_eq_true, if_true, if_false,
      reduceIte] <;>
    simp only [u32add, U32MOD] <;> omega

/-! # Lemmas: the emission spine -/

theorem flush_parts (s b : List OriginalEdgeData) :
    (FlushVectorToStream s b).1 ++ (FlushVectorToStream s b).2 = s ++ b := by
  unfold FlushVectorToStream
  by_cases h : b.isEmpty <;> simp [h]

theorem flush_fst (s b : List OriginalEdgeData) :
    (FlushVectorToStream s b).1 = s ++ b := by
  unfold FlushVectorToStream
  by_cases h : b.isEmpty
  · have : b = [] := List.isEmpty_iff.mp h
    simp [h, this]
  · simp [h]

/-- Emission of one valid candidate: the expanded edge appended carries the
spec weight formula, one record is appended to the stream-plus-buffer
content, and the counter advances by one. -/
theorem emitTurn_valid (env : FactoryEnv) (g : Graph) (via_eid node_v : Nat)
    (st : GenState) (c : TurnCandidate) (h : c.valid = true) :
    (emitTurn env g via_eid node_v st c).edges =
      st.edges ++ [⟨(getEdgeData g via_eid).edge_id, (getEdgeData g c.eid).edge_id,
        st.edges.length, claimWeight env g via_eid node_v c, true, false⟩] ∧
    (emitTurn env g via_eid node_v st c).stream ++
        (emitTurn env g via_eid node_v st c).buffer =
      st.stream ++ st.buffer ++
        [⟨env.geomPos via_eid, (getEdgeData g via_eid).name_id, c.instruction,
          (getEdgeData g via_eid).travel_mode⟩] ∧
    (emitTurn env g via_eid node_v st c).counter = st.counter + 1 := by
  have hw := emit_weight_eq env g via_eid node_v c
  simp only [emitTurn, h, Bool.not_true, Bool.false_eq_true, if_false, reduceIte]
  refine ⟨?_, ?_, ?_⟩
  · rw [hw]
  · by_cases hf : (st.buffer ++
        [(⟨env.geomPos via_eid, (getEdgeData g via_eid).name_id, c.instruction,
          (getEdgeData g via_eid).travel_mode⟩ : OriginalEdgeData)]).length > flushThreshold
    · rw [if_pos hf, flush_parts]
      simp [List.append_assoc]
    · rw [if_neg hf]
      simp [List.append_assoc]
  · trivial

theorem emitTurn_invalid (env : FactoryEnv) (g : Graph) (via_eid node_v : Nat)
    (st : GenState) (c : TurnCandidate) (h : c.valid = false) :
    emitTurn env g via_eid node_v st c = st := by
  simp [emitTurn, h]

theorem emitAll_append (env : FactoryEnv) (g : Graph) :
    ∀ (L1 L2 : List (Nat × Nat × TurnCandidate)) (st : GenState),
      emitAll env g st (L1 ++ L2) = emitAll env g (emitAll env g st L1) L2 := by
  intro L1
  induction L1 with
  | nil => intro L2 st; rfl
  | cons t rest ih => intro L2 st; simp only [List.cons_append, emitAll]; exact ih L2 _

/-- The characterization of sequential emission over valid candidates:
edges extend by the spec edges numbered from the current length, the
stream-plus-buffer content extends by the spec records, and the counter
advances by the list length. -/
theorem emitAll_spec (env : FactoryEnv) (g : Graph) :
    ∀ (L : List (Nat × Nat × TurnCandidate)) (st : GenState),
      (∀ t ∈ L, t.2.2.valid = true) →
      (emitAll env g st L).edges = st.edges ++ specEdges env g st.edges.length L ∧
      (emitAll env g st L).stream ++ (emitAll env g st L).buffer =
        st.stream ++ st.buffer ++ L.map (specRecord env g) ∧
      (emitAll env g st L).counter = st.counter + L.length := by
  intro L
  induction L with
  | nil => intro st _; simp [emitAll, specEdges]
  | cons t rest ih =>
    intro st hv
    have hvt : t.2.2.valid = true := hv t (by simp)
    have hvr : ∀ x ∈ rest, x.2.2.valid = true := fun x hx => hv x (by simp [hx])
    have he := emitTurn_valid env g t.2.1 (GetTarget g t.2.1) st t.2.2 hvt
    have hstep := ih (emitTurn env g t.2.1 (GetTarget g t.2.1) st t.2.2) hvr
    simp only [emitAll]
    refine ⟨?_, ?_, ?_⟩
    · rw [hstep.1, he.1]
      simp only [specEdges, specEdge, specRecord, List.length_append,
        List.length_singleton, List.append_assoc, List.singleton_append]
    · rw [hstep.2.1, he.2.1]
      simp [specRecord, List.append_assoc]
    · rw [hstep.2.2, he.2.2]
      simp [List.length_cons]
      omega

/-- The inner candidate fold of the driver equals sequential emission of the
valid candidates. -/
theorem foldl_emitTurn_eq (env : FactoryEnv) (g : Graph) (u e : Nat) :
    ∀ (cands : List TurnCandidate) (st : GenState),
      cands.foldl (emitTurn env g e (GetTarget g e)) st =
      emitAll env g st ((cands.filter (fun c => c.valid)).map (fun c => (u, e, c))) := by
  intro cands
  induction cands with
  | nil => intro st; rfl
  | cons c rest ih =>
    intro st
    by_cases h : c.valid = true
    · simp only [List.foldl_cons, List.filter_cons, h, if_pos, List.map_cons,
        emitAll, reduceIte]
      exact ih _
    · have h0 : c.valid = false := by simpa using h
      simp only [List.foldl_cons, List.filter_cons, h0, Bool.false_eq_true,
        if_neg, reduceIte, emitTurn_invalid env g e (GetTarget g e) st c h0]
      exact ih st

theorem genInner_fst_reversed (env : FactoryEnv) (g : Graph) (garbage : Bool)
    (u : Nat) (acc : GenState × Counters) (e : Nat)
    (hr : (getEdgeData g e).reversed = true) :
    genInner env g garbage u acc e = acc := by
  simp [genInner, hr]

theorem genInner_fst_forward (env : FactoryEnv) (g : Graph) (garbage : Bool)
    (u : Nat) (acc : GenState × Counters) (e : Nat)
    (hr : (getEdgeData g e).reversed = false) :
    (genInner env g garbage u acc e).1 =
      emitAll env g acc.1 (survOfEdge env g garbage u e) := by
  have h1 : (genInner env g garbage u acc e).1 =
      (pipelineCandidates env g garbage u e).foldl
        (emitTurn env g e (GetTarget g e)) acc.1 := by
    simp only [genInner, hr, Bool.false_eq_true, if_neg, reduceIte]
    rfl
  rw [h1, foldl_emitTurn_eq env g u e]
  rfl

theorem innerFold_eq (env : FactoryEnv) (g : Graph) (garbage : Bool) (u : Nat) :
    ∀ (ES : List Nat) (acc : GenState × Counters),
      ((ES.foldl (genInner env g garbage u) acc).1) =
        emitAll env g acc.1 (ES.flatMap (fun e =>
          if (getEdgeData g e).reversed then [] else survOfEdge env g garbage u e)) := by
  intro ES
  induction ES with
  | nil => intro acc; rfl
  | cons e rest ih =>
    intro acc
    rw [List.foldl_cons, List.flatMap_cons, ih (genInner env g garbage u acc e),
      emitAll_append]
    by_cases hr : (getEdgeData g e).reversed
    · rw [genInner_fst_reversed env g garbage u acc e hr, if_pos hr]
      rfl
    · have hr0 : (getEdgeData g e).reversed = false := by simpa using hr
      rw [if_neg hr, genInner_fst_forward env g garbage u acc e hr0]

theorem outerFold_eq (env : FactoryEnv) (g : Graph) (garbage : Bool) :
    ∀ (NS : List Nat) (acc : GenState × Counters),
      ((NS.foldl (genOuter env g garbage) acc).1) =
        emitAll env g acc.1 (NS.flatMap (fun u =>
          (adjacentEdges g u).flatMap (fun e =>
            if (getEdgeData g e).reversed then [] else survOfEdge env g garbage u e))) := by
  intro NS
  induction NS with
  | nil => intro acc; rfl
  | cons n rest ih =>
    intro acc
    simp only [List.foldl_cons, List.flatMap_cons]
    rw [ih, emitAll_append]
    congr 1
    exact innerFold_eq env g garbage n (adjacentEdges g n) acc

theorem survivors_valid (env : FactoryEnv) (g : Graph) (garbage : Bool) :
    ∀ t ∈ survivors env g garbage, t.2.2.valid = true := by
  intro t ht
  simp only [survivors, List.mem_flatMap] at ht
  obtain ⟨u, _, e, _, hmem⟩ := ht
  by_cases hr : (getEdgeData g e).reversed
  · simp [hr] at hmem
  · simp only [hr, if_neg, Bool.false_eq_true, reduceIte, survOfEdge,
      List.mem_map, List.mem_filter] at hmem
    obtain ⟨c, ⟨_, hcv⟩, rfl⟩ := hmem
    simpa using hcv

/-- The output characterization of `GenerateEdgeExpandedEdges`: the edge
list is exactly the spec edges of the surviving candidates, the record body
is exactly the spec records, and a written header counts the survivors. -/
theorem gen_output_spec (env : FactoryEnv) (g : Graph) (garbage : Bool) :
    (GenerateEdgeExpandedEdges env g garbage).edges =
      specEdges env g 0 (survivors env g garbage) ∧
    (GenerateEdgeExpandedEdges env g garbage).records =
      (survivors env g garbage).map (specRecord env g) ∧
    ∀ n, (GenerateEdgeExpandedEdges env g garbage).header = some n →
      n = (survivors env g garbage).length := by
  have hfold := outerFold_eq env g garbage (List.range g.numNodes)
    (⟨[], [], [], 0⟩, ⟨0, 0, 0⟩)
  have hsurv : (List.range g.numNodes).flatMap (fun u =>
      (adjacentEdges g u).flatMap (fun e =>
        if (getEdgeData g e).reversed then [] else survOfEdge env g garbage u e)) =
      survivors env g garbage := rfl
  rw [hsurv] at hfold
  have hspec := emitAll_spec env g (survivors env g garbage)
    (⟨[], [], [], 0⟩ : GenState) (survivors_valid env g garbage)
  have hE : ((List.range g.numNodes).foldl (genOuter env g garbage)
      (⟨[], [], [], 0⟩, ⟨0, 0, 0⟩)).1.edges =
      specEdges env g 0 (survivors env g garbage) := by
    rw [hfold]
    simpa using hspec.1
  have hSB : ((List.range g.numNodes).foldl (genOuter env g garbage)
      (⟨[], [], [], 0⟩, ⟨0, 0, 0⟩)).1.stream ++
      ((List.range g.numNodes).foldl (genOuter env g garbage)
      (⟨[], [], [], 0⟩, ⟨0, 0, 0⟩)).1.buffer =
      (survivors env g garbage).map (specRecord env g) := by
    rw [hfold]
    simpa using hspec.2.1
  have hC : ((List.range g.numNodes).foldl (genOuter env g garbage)
      (⟨[], [], [], 0⟩, ⟨0, 0, 0⟩)).1.counter =
      (survivors env g garbage).length := by
    rw [hfold]
    simpa using hspec.2.2
  simp only [GenerateEdgeExpandedEdges]
  refine ⟨hE, ?_, ?_⟩
  · rw [flush_fst, hSB]
  · intro n hn
    by_cases hc : ((List.range g.numNodes).foldl (genOuter env g garbage)
        (⟨[], [], [], 0⟩, ⟨0, 0, 0⟩)).1.counter < 4294967296
    · rw [if_pos hc] at hn
      rw [← Option.some_inj.mp hn, hC]
    · rw [if_neg hc] at hn
      cases hn

/-! # Claim theorems -/

/-- Claim C1 (confirmed).  For every surviving valid turn candidate, the
weight of the emitted expanded edge equals `via.distance`, plus
`traffic_signal_penalty` if the turn node is in the traffic-light set, plus
`u_turn_penalty` if the instruction is a U-turn, plus the turn penalty
returned by the hook for input `180 - angle`, the hook contributing 0 when
`has_turn_penalty_function` is false or the hook call fails: the emitted
edge list is exactly the spec edges (`specEdge` / `claimWeight`) of the
surviving candidates, in order. -/
theorem claim1_expanded_edge_weight (env : FactoryEnv) (g : Graph) (garbage : Bool) :
    (GenerateEdgeExpandedEdges env g garbage).edges =
      specEdges env g 0 (survivors env g garbage) :=
  (gen_output_spec env g garbage).1

/-- Claim C4 (confirmed).  The `u32` count overwritten at offset 0 of the
original-edge-data file equals the number of records written to the body,
which is exactly one record (`specRecord`) per surviving valid turn
candidate. -/
theorem claim4_header_counts_records (env : FactoryEnv) (g : Graph) (garbage : Bool) :
    (GenerateEdgeExpandedEdges env g garbage).records =
      (survivors env g garbage).map (specRecord env g) ∧
    ∀ n, (GenerateEdgeExpandedEdges env g garbage).header = some n →
      n = (GenerateEdgeExpandedEdges env g garbage).records.length := by
  have h := gen_output_spec env g garbage
  refine ⟨h.2.1, fun n hn => ?_⟩
  rw [h.2.1, List.length_map]
  exact h.2.2 n hn

/-- Witness for claim C4 at a concrete run: the two-way street yields two
records and the header 2. -/
theorem claim4_witness :
    (2 : Nat) = (GenerateEdgeExpandedEdges baseEnv gTwoWayR false).records.length :=
  (claim4_header_counts_records baseEnv gTwoWayR false).2 2 (by decide)

/-- Counterexample to claim C2 as stated.  With a lua hook returning the
penalty -50, the surviving U-turn of the two-way street is emitted with
weight 50, strictly below `via.distance = 100`: the invariant
`w` at least `via_edge.distance` fails on the code. -/
theorem claim2_counterexample :
    (GenerateEdgeExpandedEdges envNegHook gTwoWayR false).edges.get? 0 =
      some ⟨0, 1, 0, 50, true, false⟩ ∧
    (survivors envNegHook gTwoWayR false).get? 0 =
      some (0, 0, ⟨1, true, 0, ⟨TurnType.Turn, DirectionModifier.UTurn⟩, 1⟩) ∧
    (getEdgeData gTwoWayR 0).distance = 100 ∧ ¬((100 : Nat) ≤ 50) := by decide

/-- Counterexample to claim C6 as stated.  At `gUturn` the U-turn candidate
(from `0` over the oneway street back onto edge 1) fails every keeping
condition: the turn node is no barrier, has out-degree 2, and 2
bidirectional edges emanate from it; the candidate is indeed invalid, but
`skipped_uturns_counter` is NOT incremented (the candidate was already
invalid because its onto edge is reversed, and the source only counts
U-turns it invalidates itself). -/
theorem claim6_counterexample :
    ((getTurnCandidates envUturn gUturn false 0 0).1.get? 0 =
      some ⟨1, false, 0, ⟨TurnType.Turn, DirectionModifier.UTurn⟩, ⟨4, 5⟩⟩) ∧
    GetTarget gUturn 1 = 0 ∧
    envUturn.isBarrier 1 = false ∧ GetOutDegree gUturn 1 = 2 ∧
    bidirectionalCount gUturn 1 = 2 ∧
    (getTurnCandidates envUturn gUturn false 0 0).2.uturns = 0 := by decide

/-- Claim C7 (code bug).  The reclassification gate reads the uninitialized
local `has_roundabout_entry`.  At `gRoundabout` no valid roundabout-entry
candidate exists (first conjunct), so per the claim no candidate may be
reclassified; with the garbage initial value `false` the invalid
`EnterRoundabout` candidate indeed keeps its type, but with the garbage
initial value `true` it is reclassified to `EnterRoundaboutAtExit`. -/
theorem claim7_uninitialized_reclassification :
    ((getTurnCandidates envRoundabout gRoundabout false 0 0).1.all
      (fun c => !(c.valid && entersRoundaboutB c.instruction)) = true) ∧
    ((getTurnCandidates envRoundabout gRoundabout false 0 0).1.map
      (fun c => c.instruction.type) =
      [TurnType.Turn, TurnType.EnterRoundabout, TurnType.Turn]) ∧
    ((getTurnCandidates envRoundabout gRoundabout true 0 0).1.map
      (fun c => c.instruction.type) =
      [TurnType.Turn, TurnType.EnterRoundaboutAtExit, TurnType.Turn]) := by decide

/-- Claim C9 (code bug).  Two runs of `getTurnCandidates` on identical
inputs that differ only in the indeterminate initial value of the
uninitialized `has_roundabout_entry` produce different outputs, so the
transformation is not deterministic as claimed. -/
theorem claim9_garbage_dependent_output :
    getTurnCandidates envRoundabout gRoundabout true 0 0 ≠
    getTurnCandidates envRoundabout gRoundabout false 0 0 := by decide

/-- Claim C10 (code bug).  At `gAssert` the duplicate-removal pass erases
the invalid U-turn at index 0; the list passed through `optimizeCandidates`
into `suppressTurns` has exactly three candidates whose first entry is a
`SharpRight` turn, so both assertions (the size-3 assertion of
`suppressTurns` and the assertion of `isObviousChoice` for a
non-low-priority candidate) are violated. -/
theorem claim10_assert_violation :
    (optimizeCandidates envAssert gAssert 0
        (getTurnCandidates envAssert gAssert false 0 0).1).length = 3 ∧
    suppressSizeThreeAssertHolds (optimizeCandidates envAssert gAssert 0
        (getTurnCandidates envAssert gAssert false 0 0).1) = false ∧
    obviousChoiceAssertHolds envAssert gAssert (optimizeCandidates envAssert gAssert 0
        (getTurnCandidates envAssert gAssert false 0 0).1) 0 = false := by decide

/-- Counterexample to claim C8 as stated.  On the oneway street the forward
side is routable (id 0, weight slot holding 103) and the reverse side is
unroutable (`edge_id = SPECIAL`); the code sets the ROUTABLE side's weight
slot to `INVALID_EDGE_WEIGHT`, not the slot of the unroutable side (which
has no slot): after the generator runs, slot 0 no longer holds
`distance + u_turn_penalty`. -/
theorem claim8_counterexample :
    (RenumberEdges gOneWay oneWayProfile).weights = [103] ∧
    (getEdgeData gOneWayR 0).edge_id = 0 ∧
    (getEdgeData gOneWayR 1).edge_id = SPECIAL_EDGEID ∧
    (GenerateEdgeExpandedNodes envOneWay gOneWayR
      (RenumberEdges gOneWay oneWayProfile).weights).weights = [INVALID_EDGE_WEIGHT] ∧
    (103 : Int) ≠ INVALID_EDGE_WEIGHT := by decide

/-- Claim C5 (confirmed).  The generic restriction query invalidates a
candidate (and increments `restricted_turns_counter`) only when no only-turn
restriction emanates from `(from, turn_node)`.  First conjunct: when
`only_restriction_to_node` is not `SPECIAL_NODEID`, the outcome of the
candidate computation does not depend on the generic restriction oracle at
all (invalidation is driven solely by the only-turn branch and the
barrier/U-turn checks).  Second conjunct: when it is `SPECIAL_NODEID` and
the oracle reports a restriction, the candidate is invalid and the
restriction counter increment is exactly 1. -/
theorem claim5_generic_restriction_gating (env : FactoryEnv) (g : Graph)
    (from_node via_eid turn_node only_r : Nat) (barrier : Bool) (onto : Nat) :
    (only_r ≠ SPECIAL_NODEID →
      ∀ R : Nat → Nat → Nat → Bool,
        processOnto { env with isTurnRestricted := R } g from_node via_eid turn_node
          only_r barrier onto =
        processOnto env g from_node via_eid turn_node only_r barrier onto) ∧
    (only_r = SPECIAL_NODEID →
      GetTarget g onto ≠ SPECIAL_NODEID →
      env.isTurnRestricted from_node turn_node (GetTarget g onto) = true →
      (processOnto env g from_node via_eid turn_node only_r barrier onto).1.valid = false ∧
      (processOnto env g from_node via_eid turn_node only_r barrier onto).2.restricted = 1) := by
  constructor
  · intro h R
    have hb : (only_r == SPECIAL_NODEID) = false := by simpa using h
    simp only [processOnto, hb, Bool.and_false, Bool.false_and, Bool.false_eq_true,
      if_neg, reduceIte]
    rfl
  · intro h1 h2 h3
    subst h1
    have ht : (GetTarget g onto == SPECIAL_NODEID) = false := by simpa using h2
    simp [processOnto, ht, h3]

/-- Witness for claim C5: with an always-true restriction oracle, an
only-turn restriction to node 7 makes the outcome oracle-independent, and
with no only-turn restriction the oracle invalidates the candidate and
counts exactly one restricted turn. -/
theorem claim5_witness :
    (processOnto { baseEnv with isTurnRestricted := fun _ _ _ => true } gTwoWayR
        0 0 1 7 false 1 =
      processOnto baseEnv gTwoWayR 0 0 1 7 false 1) ∧
    ((processOnto { baseEnv with isTurnRestricted := fun _ _ _ => true } gTwoWayR
        0 0 1 SPECIAL_NODEID false 1).1.valid = false ∧
     (processOnto { baseEnv with isTurnRestricted := fun _ _ _ => true } gTwoWayR
        0 0 1 SPECIAL_NODEID false 1).2.restricted = 1) := by
  constructor
  · exact (claim5_generic_restriction_gating baseEnv gTwoWayR 0 0 1 7 false 1).1
      (by decide) _
  · exact (claim5_generic_restriction_gating
      { baseEnv with isTurnRestricted := fun _ _ _ => true } gTwoWayR
      0 0 1 SPECIAL_NODEID false 1).2 rfl (by decide) rfl

/-- Claim C6, amended (corrected).  A U-turn candidate (`from = to`) is kept
valid only when the turn node is a barrier, has out-degree at most 1, or at
most one bidirectional edge emanates from it; otherwise it ends up invalid.
However `skipped_uturns_counter` is incremented exactly when, in addition,
the candidate was still valid on reaching the U-turn check (its onto edge
not reversed and no only-turn restriction invalidated it earlier) — not
unconditionally as the claim states (see the counterexample). -/
theorem claim6_amended_uturn_pruning (env : FactoryEnv) (g : Graph)
    (from_node via_eid turn_node only_r : Nat) (barrier : Bool) (onto : Nat)
    (hu : from_node = GetTarget g onto) :
    ((processOnto env g from_node via_eid turn_node only_r barrier onto).1.valid = true →
      (barrier = true ∨ GetOutDegree g turn_node ≤ 1 ∨
       bidirectionalCount g turn_node ≤ 1)) ∧
    (barrier = false → GetOutDegree g turn_node > 1 →
      bidirectionalCount g turn_node > 1 →
      (processOnto env g from_node via_eid turn_node only_r barrier onto).1.valid = false) ∧
    ((processOnto env g from_node via_eid turn_node only_r barrier onto).2.uturns = 1 ↔
      (barrier = false ∧ GetOutDegree g turn_node > 1 ∧
       bidirectionalCount g turn_node > 1 ∧
       (!(getEdgeData g onto).reversed &&
        (only_r == SPECIAL_NODEID || GetTarget g onto == only_r)) = true)) := by
  subst hu
  by_cases hrev : (getEdgeData g onto).reversed <;>
  by_cases hbar : barrier <;>
  by_cases hod : GetOutDegree g turn_node > 1 <;>
  by_cases hbid : bidirectionalCount g turn_node > 1 <;>
  by_cases ho1 : (only_r == SPECIAL_NODEID) = true <;>
  by_cases ho2 : (GetTarget g onto == only_r) = true <;>
  by_cases hgen : env.isTurnRestricted (GetTarget g onto) turn_node
    (GetTarget g onto) = true <;>
    simp_all [processOnto] <;> split_ifs <;> simp_all

/-- Witness for claim C6 at the concrete fixture: the pruned U-turn of
`gUturn` is invalid. -/
theorem claim6_witness :
    (processOnto envUturn gUturn 0 0 1 SPECIAL_NODEID false 1).1.valid = false :=
  (claim6_amended_uturn_pruning envUturn gUturn 0 0 1 SPECIAL_NODEID false 1
    (by decide)).2.1 rfl (by decide) (by decide)

/-- Claim C8, amended (corrected).  When both sides of an undirected pair
are unroutable `InsertEdgeBasedNode` changes nothing and emits no expanded
nodes (as claimed); but when exactly one side is unroutable it is the
ROUTABLE (forward) side's weight slot that is set to `INVALID_EDGE_WEIGHT`
— the unroutable side has `edge_id = SPECIAL` and owns no slot — and when
the reverse side is routable no weight slot is written at all. -/
theorem claim8_amended_weight_slot (env : FactoryEnv) (g : Graph)
    (st : NodesState) (node_u node_v : Nat) :
    ((getEdgeData g (FindEdge g node_u node_v)).edge_id = SPECIAL_NODEID →
     (getEdgeData g (FindEdge g node_v node_u)).edge_id = SPECIAL_NODEID →
      InsertEdgeBasedNode env g st node_u node_v = st) ∧
    ((getEdgeData g (FindEdge g node_u node_v)).edge_id ≠ SPECIAL_NODEID →
     (getEdgeData g (FindEdge g node_v node_u)).edge_id = SPECIAL_NODEID →
      (InsertEdgeBasedNode env g st node_u node_v).weights =
        st.weights.set (getEdgeData g (FindEdge g node_u node_v)).edge_id
          INVALID_EDGE_WEIGHT) ∧
    ((getEdgeData g (FindEdge g node_v node_u)).edge_id ≠ SPECIAL_NODEID →
      (InsertEdgeBasedNode env g st node_u node_v).weights = st.weights) := by
  refine ⟨?_, ?_, ?_⟩
  · intro h1 h2
    simp [InsertEdgeBasedNode, h1, h2]
  · intro h1 h2
    have hb1 : ((getEdgeData g (FindEdge g node_u node_v)).edge_id ==
        SPECIAL_NODEID) = false := by
      simpa using h1
    simp [InsertEdgeBasedNode, hb1, h2]
  · intro h2
    have hb2 : ((getEdgeData g (FindEdge g node_v node_u)).edge_id ==
        SPECIAL_NODEID) = false := by
      simpa using h2
    simp [InsertEdgeBasedNode, hb2]

/-- Witness for claim C8 at the oneway fixture: the routable slot 0 is
overwritten with `INVALID_EDGE_WEIGHT`. -/
theorem claim8_witness :
    (InsertEdgeBasedNode envOneWay gOneWayR ⟨[103], [], []⟩ 0 1).weights =
      List.set [103] (getEdgeData gOneWayR (FindEdge gOneWayR 0 1)).edge_id
        INVALID_EDGE_WEIGHT :=
  (claim8_amended_weight_slot envOneWay gOneWayR ⟨[103], [], []⟩ 0 1).2.1
    (by decide) (by decide)

/-! # Lemmas and theorem for the edge renumbering -/


theorem edgeAt_getElem (es : List NBEdge) (i : Nat) (h : i < es.length) :
    es[i]? = some (edgeAt es i) := by
  simp [edgeAt, List.getD, List.getElem?_eq_getElem h]

theorem edgeAt_set (es : List NBEdge) (i : Nat) (v : NBEdge) (j : Nat)
    (h : i < es.length) :
    edgeAt (es.set i v) j = if j = i then v else edgeAt es j := by
  by_cases hj : j = i
  · subst hj
    simp [edgeAt, List.getElem?_set_self, h]
  · simp [edgeAt, List.getElem?_set_ne (fun hh => hj hh.symm), hj]

theorem mem_adjacentEdges (g : Graph) (u i : Nat) :
    i ∈ adjacentEdges g u ↔ i < g.edges.length ∧ (edgeAt g.edges i).source = u := by
  simp [adjacentEdges, List.mem_filter, List.mem_range, edgeAt]

theorem adjacentEdges_nodup (g : Graph) (u : Nat) : (adjacentEdges g u).Nodup :=
  (List.nodup_range _).filter _

theorem flatMap_adj_nodup (g : Graph) :
    ∀ ns : List Nat, ns.Nodup → (ns.flatMap (adjacentEdges g)).Nodup := by
  intro ns
  induction ns with
  | nil => intro _; simp
  | cons a rest ih =>
    intro hnd
    rw [List.flatMap_cons, List.nodup_append]
    refine ⟨adjacentEdges_nodup g a, ih (List.Nodup.of_cons hnd), ?_⟩
    intro i hia hirest
    have h1 := (mem_adjacentEdges g a i).mp hia
    rw [List.mem_flatMap] at hirest
    obtain ⟨b, hb, hib⟩ := hirest
    have h2 := (mem_adjacentEdges g b i).mp hib
    have : a = b := h1.2.symm.trans h2.2
    subst this
    exact (List.nodup_cons.mp hnd).1 hb

theorem renumberOrder_nodup (g : Graph) : (renumberOrder g).Nodup :=
  flatMap_adj_nodup g _ (List.nodup_range _)

theorem mem_renumberOrder (g : Graph) (i : Nat) :
    i ∈ renumberOrder g ↔
      i < g.edges.length ∧ (edgeAt g.edges i).source < g.numNodes := by
  unfold renumberOrder
  rw [List.mem_flatMap]
  constructor
  · rintro ⟨u, hu, hiu⟩
    have h := (mem_adjacentEdges g u i).mp hiu
    exact ⟨h.1, h.2 ▸ List.mem_range.mp hu⟩
  · rintro ⟨h1, h2⟩
    exact ⟨(edgeAt g.edges i).source, List.mem_range.mpr h2,
      (mem_adjacentEdges g _ i).mpr ⟨h1, rfl⟩⟩

theorem flatMap_adj_sorted (g : Graph) :
    ∀ ns : List Nat, ns.Pairwise (· < ·) →
      (ns.flatMap (adjacentEdges g)).Pairwise
        (fun i j => (edgeAt g.edges i).source ≤ (edgeAt g.edges j).source) := by
  intro ns
  induction ns with
  | nil => intro _; simp
  | cons a rest ih =>
    intro hp
    rw [List.flatMap_cons, List.pairwise_append]
    refine ⟨?_, ih (List.Pairwise.of_cons hp), ?_⟩
    · refine List.pairwise_iff_forall_sublist.mpr ?_
      intro i j hsub
      have hi : i ∈ adjacentEdges g a := hsub.subset (by simp)
      have hj : j ∈ adjacentEdges g a := hsub.subset (by simp)
      rw [(mem_adjacentEdges g a i).mp hi |>.2, (mem_adjacentEdges g a j).mp hj |>.2]
    · intro i hia j hjrest
      have h1 := (mem_adjacentEdges g a i).mp hia
      rw [List.mem_flatMap] at hjrest
      obtain ⟨b, hb, hjb⟩ := hjrest
      have h2 := (mem_adjacentEdges g b j).mp hjb
      have hab : a < b := (List.pairwise_cons.mp hp).1 b hb
      rw [h1.2, h2.2]
      exact Nat.le_of_lt hab

theorem renumberOrder_sorted (g : Graph) :
    (renumberOrder g).Pairwise
      (fun i j => (edgeAt g.edges i).source ≤ (edgeAt g.edges j).source) :=
  flatMap_adj_sorted g _ (List.pairwise_lt_range _)

theorem set_stripId_map :
    ∀ (es : List NBEdge) (i : Nat) (v : NBEdge),
      stripId v = stripId (edgeAt es i) →
      (es.set i v).map stripId = es.map stripId := by
  intro es
  induction es with
  | nil => intro i v _; simp
  | cons e rest ih =>
    intro i v hv
    cases i with
    | zero =>
      simp only [List.set_cons_zero, List.map_cons]
      rw [hv]
      simp [edgeAt]
    | succ n =>
      simp only [List.set_cons_succ, List.map_cons]
      rw [ih n v (by simpa [edgeAt, List.getD] using hv)]

theorem stripId_ignores_id (e : NBEdge) (n : Nat) :
    stripId { e with data := { e.data with edge_id := n } } = stripId e := rfl

theorem renumberFold_spec (p : SpeedProfile) :
    ∀ (L : List Nat) (st : RenumberResult),
      (∀ i ∈ L, i < st.edges.length) → L.Nodup →
      (L.foldl (renumberVisit p) st).count =
          st.count + (fwdFilter st.edges L).length ∧
      (L.foldl (renumberVisit p) st).weights =
          st.weights ++ (fwdFilter st.edges L).map
            (fun i => ((edgeAt st.edges i).data.distance : Int) + p.u_turn_penalty) ∧
      ((L.foldl (renumberVisit p) st).edges).map stripId = st.edges.map stripId ∧
      (∀ j, j ∉ L →
        edgeAt (L.foldl (renumberVisit p) st).edges j = edgeAt st.edges j) ∧
      (∀ k, k < (fwdFilter st.edges L).length →
        idAt (L.foldl (renumberVisit p) st).edges
          ((fwdFilter st.edges L).getD k 0) = st.count + k) := by
  intro L
  induction L with
  | nil =>
    intro st _ _
    refine ⟨by simp [fwdFilter], by simp [fwdFilter], rfl, fun j _ => rfl, ?_⟩
    intro k hk
    simp [fwdFilter] at hk
  | cons i0 rest ih =>
    intro st hlen hnd
    have hi0 : i0 < st.edges.length := hlen i0 (by simp)
    have hrest_len : ∀ i ∈ rest, i < st.edges.length := fun i hi => hlen i (by simp [hi])
    have hnd2 : rest.Nodup := (List.nodup_cons.mp hnd).2
    have hi0nr : i0 ∉ rest := (List.nodup_cons.mp hnd).1
    have hget : st.edges[i0]? = some (edgeAt st.edges i0) := edgeAt_getElem _ _ hi0
    rw [List.foldl_cons]
    by_cases hf : isFwd st.edges i0 = true
    · have hrev : (edgeAt st.edges i0).data.reversed = false := by
        simpa [isFwd] using hf
      have hvisit : renumberVisit p st i0 =
          ⟨st.edges.set i0 { edgeAt st.edges i0 with data :=
              { (edgeAt st.edges i0).data with edge_id := st.count } },
           st.weights ++ [((edgeAt st.edges i0).data.distance : Int) + p.u_turn_penalty],
           st.count + 1⟩ := by
        simp [renumberVisit, hget, hrev]
      rw [hvisit]
      have hlen1 : (st.edges.set i0 { edgeAt st.edges i0 with data :=
          { (edgeAt st.edges i0).data with edge_id := st.count } }).length =
          st.edges.length := List.length_set ..
      have hAt : ∀ j, edgeAt (st.edges.set i0 { edgeAt st.edges i0 with data :=
          { (edgeAt st.edges i0).data with edge_id := st.count } }) j =
          if j = i0 then { edgeAt st.edges i0 with data :=
            { (edgeAt st.edges i0).data with edge_id := st.count } }
          else edgeAt st.edges j := fun j => edgeAt_set _ _ _ _ hi0
      have hfw : ∀ j, isFwd (st.edges.set i0 { edgeAt st.edges i0 with data :=
          { (edgeAt st.edges i0).data with edge_id := st.count } }) j =
          isFwd st.edges j := by
        intro j
        by_cases hj : j = i0
        · subst hj
          simp [isFwd, hAt]
        · simp [isFwd, hAt, hj]
      have hff : fwdFilter (st.edges.set i0 { edgeAt st.edges i0 with data :=
          { (edgeAt st.edges i0).data with edge_id := st.count } }) rest =
          fwdFilter st.edges rest :=
        List.filter_congr (fun x _ => hfw x)
      have ihs := ih ⟨st.edges.set i0 { edgeAt st.edges i0 with data :=
          { (edgeAt st.edges i0).data with edge_id := st.count } },
         st.weights ++ [((edgeAt st.edges i0).data.distance : Int) + p.u_turn_penalty],
         st.count + 1⟩
        (by intro i hi; rw [hlen1]; exact hrest_len i hi) hnd2
      have hcons : fwdFilter st.edges (i0 :: rest) = i0 :: fwdFilter st.edges rest := by
        simp [fwdFilter, List.filter_cons, hf]
      have hmapContent : (fwdFilter st.edges rest).map
          (fun i => ((edgeAt (st.edges.set i0 { edgeAt st.edges i0 with data :=
            { (edgeAt st.edges i0).data with edge_id := st.count } }) i).data.distance : Int)
            + p.u_turn_penalty) =
          (fwdFilter st.edges rest).map
          (fun i => ((edgeAt st.edges i).data.distance : Int) + p.u_turn_penalty) := by
        refine List.map_congr_left ?_
        intro x hx
        have hxr : x ∈ rest := List.mem_of_mem_filter hx
        have hxne : x ≠ i0 := fun hxx => hi0nr (hxx ▸ hxr)
        rw [hAt x, if_neg hxne]
      refine ⟨?_, ?_, ?_, ?_, ?_⟩
      · rw [ihs.1, hcons]
        simp only [hff, List.length_cons]
        omega
      · rw [ihs.2.1, hcons, hff, hmapContent]
        simp [List.append_assoc]
      · rw [ihs.2.2.1]
        exact set_stripId_map st.edges i0 _ (stripId_ignores_id _ _)
      · intro j hj
        have hj1 : j ∉ rest := fun hh => hj (by simp [hh])
        have hj2 : j ≠ i0 := fun hh => hj (by simp [hh])
        rw [ihs.2.2.2.1 j hj1, hAt j, if_neg hj2]
      · intro k hk
        rw [hcons] at hk
        rw [hcons]
        cases k with
        | zero =>
          simp only [List.getD_cons_zero]
          have h1 := ihs.2.2.2.1 i0 hi0nr
          unfold idAt
          rw [h1, hAt i0, if_pos rfl]
          show st.count = st.count + 0
          omega
        | succ k2 =>
          have hk2 : k2 < (fwdFilter st.edges rest).length := by
            simpa using hk
          have hids := ihs.2.2.2.2 k2 (by rw [hff]; exact hk2)
          rw [hff] at hids
          simp only [List.getD_cons_succ]
          rw [hids]
          show st.count + 1 + k2 = st.count + (k2 + 1)
          omega
    · have hrev : (edgeAt st.edges i0).data.reversed = true := by
        simp [isFwd] at hf
        exact hf
      have hvisit : renumberVisit p st i0 = st := by
        simp [renumberVisit, hget, hrev]
      rw [hvisit]
      have hcons : fwdFilter st.edges (i0 :: rest) = fwdFilter st.edges rest := by
        simp [fwdFilter, List.filter_cons, isFwd, hrev]
      have ihs := ih st hrest_len hnd2
      refine ⟨by rw [hcons]; exact ihs.1, by rw [hcons]; exact ihs.2.1, ihs.2.2.1,
        ?_, ?_⟩
      · intro j hj
        exact ihs.2.2.2.1 j (fun hh => hj (by simp [hh]))
      · intro k hk
        rw [hcons] at hk
        rw [hcons]
        exact ihs.2.2.2.2 k hk

theorem edgeAt_mem (es : List NBEdge) (i : Nat) (h : i < es.length) :
    edgeAt es i ∈ es := by
  have : edgeAt es i = es[i] := by
    simp [edgeAt, List.getD, List.getElem?_eq_getElem h]
  rw [this]
  exact List.getElem_mem h

theorem mem_fwdIdxs (g : Graph) (hsrc : sourcesValid g) (i : Nat) :
    i ∈ fwdIdxs g ↔ i < g.edges.length ∧ isFwd g.edges i = true := by
  unfold fwdIdxs fwdFilter
  rw [List.mem_filter, mem_renumberOrder]
  constructor
  · rintro ⟨⟨h1, _⟩, h2⟩
    exact ⟨h1, h2⟩
  · rintro ⟨h1, h2⟩
    exact ⟨⟨h1, hsrc _ (edgeAt_mem g.edges i h1)⟩, h2⟩

theorem fwdIdxs_nodup (g : Graph) : (fwdIdxs g).Nodup :=
  (renumberOrder_nodup g).filter _

theorem fwdIdxs_sorted (g : Graph) :
    (fwdIdxs g).Pairwise
      (fun i j => (edgeAt g.edges i).source ≤ (edgeAt g.edges j).source) :=
  (renumberOrder_sorted g).sublist (List.filter_sublist _)

theorem renumber_count (g : Graph) (p : SpeedProfile) :
    (RenumberEdges g p).count = (fwdIdxs g).length := by
  have hbounds : ∀ i ∈ renumberOrder g, i < g.edges.length :=
    fun i hi => ((mem_renumberOrder g i).mp hi).1
  have hm := renumberFold_spec p (renumberOrder g) ⟨g.edges, [], 0⟩ hbounds
    (renumberOrder_nodup g)
  simpa [RenumberEdges, fwdIdxs] using hm.1

theorem renumber_weights (g : Graph) (p : SpeedProfile) :
    (RenumberEdges g p).weights = (fwdIdxs g).map
      (fun i => ((edgeAt g.edges i).data.distance : Int) + p.u_turn_penalty) := by
  have hbounds : ∀ i ∈ renumberOrder g, i < g.edges.length :=
    fun i hi => ((mem_renumberOrder g i).mp hi).1
  have hm := renumberFold_spec p (renumberOrder g) ⟨g.edges, [], 0⟩ hbounds
    (renumberOrder_nodup g)
  simpa [RenumberEdges, fwdIdxs] using hm.2.1

theorem renumber_strip (g : Graph) (p : SpeedProfile) :
    (RenumberEdges g p).edges.map stripId = g.edges.map stripId := by
  have hbounds : ∀ i ∈ renumberOrder g, i < g.edges.length :=
    fun i hi => ((mem_renumberOrder g i).mp hi).1
  have hm := renumberFold_spec p (renumberOrder g) ⟨g.edges, [], 0⟩ hbounds
    (renumberOrder_nodup g)
  simpa [RenumberEdges] using hm.2.2.1

theorem renumber_ids (g : Graph) (p : SpeedProfile) :
    ∀ k, k < (fwdIdxs g).length →
      idAt (RenumberEdges g p).edges ((fwdIdxs g).getD k 0) = k := by
  have hbounds : ∀ i ∈ renumberOrder g, i < g.edges.length :=
    fun i hi => ((mem_renumberOrder g i).mp hi).1
  have hm := renumberFold_spec p (renumberOrder g) ⟨g.edges, [], 0⟩ hbounds
    (renumberOrder_nodup g)
  intro k hk
  have := hm.2.2.2.2 k (by simpa [fwdIdxs] using hk)
  simpa [RenumberEdges, fwdIdxs] using this

theorem fwd_position (g : Graph) (p : SpeedProfile) (hsrc : sourcesValid g)
    (i : Nat) (h1 : i < g.edges.length) (h2 : isFwd g.edges i = true) :
    ∃ k, ∃ hk : k < (fwdIdxs g).length, (fwdIdxs g)[k] = i ∧
      idAt (RenumberEdges g p).edges i = k := by
  have hmem : i ∈ fwdIdxs g := (mem_fwdIdxs g hsrc i).mpr ⟨h1, h2⟩
  obtain ⟨k, hk, hget⟩ := List.mem_iff_getElem.mp hmem
  refine ⟨k, hk, hget, ?_⟩
  have := renumber_ids g p k hk
  rw [List.getD_eq_getElem _ _ hk, hget] at this
  exact this

/-- Claim C3 (confirmed).  After `RenumberEdges`, every forward source edge
has a unique id, the ids form the contiguous range `[0, count)` (so
`[0, m_max_edge_id]` with `m_max_edge_id = count - 1`), they are assigned in
node-id order, the weight vector has exactly `count` entries, and the entry
at each assigned id is that edge's `distance + u_turn_penalty`. -/
theorem claim3_renumber_spec (g : Graph) (p : SpeedProfile) (hsrc : sourcesValid g) :
    (∀ i, i < g.edges.length → isFwd g.edges i = true →
      idAt (RenumberEdges g p).edges i < (RenumberEdges g p).count) ∧
    (∀ i j, i < g.edges.length → j < g.edges.length → isFwd g.edges i = true →
      isFwd g.edges j = true →
      idAt (RenumberEdges g p).edges i = idAt (RenumberEdges g p).edges j → i = j) ∧
    (∀ k, k < (RenumberEdges g p).count → ∃ i, i < g.edges.length ∧
      isFwd g.edges i = true ∧ idAt (RenumberEdges g p).edges i = k) ∧
    (RenumberEdges g p).weights.length = (RenumberEdges g p).count ∧
    (∀ i, i < g.edges.length → isFwd g.edges i = true →
      (RenumberEdges g p).weights.getD (idAt (RenumberEdges g p).edges i) 0 =
        ((edgeAt g.edges i).data.distance : Int) + p.u_turn_penalty) ∧
    (∀ i j, i < g.edges.length → j < g.edges.length → isFwd g.edges i = true →
      isFwd g.edges j = true →
      (edgeAt g.edges i).source < (edgeAt g.edges j).source →
      idAt (RenumberEdges g p).edges i < idAt (RenumberEdges g p).edges j) := by
  refine ⟨?_, ?_, ?_, ?_, ?_, ?_⟩
  · intro i h1 h2
    obtain ⟨k, hk, _, hidk⟩ := fwd_position g p hsrc i h1 h2
    rw [hidk, renumber_count]
    exact hk
  · intro i j h1 h2 h3 h4 heq
    obtain ⟨ki, hki, hgi, hii⟩ := fwd_position g p hsrc i h1 h3
    obtain ⟨kj, hkj, hgj, hij⟩ := fwd_position g p hsrc j h2 h4
    rw [hii, hij] at heq
    subst heq
    rw [← hgi, ← hgj]
  · intro k hk
    rw [renumber_count] at hk
    refine ⟨(fwdIdxs g).getD k 0, ?_, ?_, renumber_ids g p k hk⟩
    · have hmem : (fwdIdxs g).getD k 0 ∈ fwdIdxs g := by
        rw [List.getD_eq_getElem _ _ hk]
        exact List.getElem_mem hk
      exact ((mem_fwdIdxs g hsrc _).mp hmem).1
    · have hmem : (fwdIdxs g).getD k 0 ∈ fwdIdxs g := by
        rw [List.getD_eq_getElem _ _ hk]
        exact List.getElem_mem hk
      exact ((mem_fwdIdxs g hsrc _).mp hmem).2
  · rw [renumber_weights, renumber_count, List.length_map]
  · intro i h1 h2
    obtain ⟨k, hk, hgk, hidk⟩ := fwd_position g p hsrc i h1 h2
    rw [hidk, renumber_weights]
    rw [List.getD_eq_getElem _ _ (by simpa using hk)]
    simp only [List.getElem_map]
    rw [hgk]
  · intro i j h1 h2 h3 h4 hlt
    obtain ⟨ki, hki, hgi, hii⟩ := fwd_position g p hsrc i h1 h3
    obtain ⟨kj, hkj, hgj, hij⟩ := fwd_position g p hsrc j h2 h4
    rw [hii, hij]
    rcases Nat.lt_trichotomy ki kj with h | h | h
    · exact h
    · exfalso
      subst h
      rw [← hgi, ← hgj] at hlt
      exact Nat.lt_irrefl _ hlt
    · exfalso
      have hpair := List.pairwise_iff_getElem.mp (fwdIdxs_sorted g) kj ki hkj hki h
      rw [hgi, hgj] at hpair
      exact Nat.not_le_of_lt hlt hpair


/-- Witness for claim C3 at the two-way street fixture: the weight vector
length equals the returned count. -/
theorem claim3_witness :
    (RenumberEdges gTwoWay baseEnv.profile).weights.length =
      (RenumberEdges gTwoWay baseEnv.profile).count :=
  (claim3_renumber_spec gTwoWay baseEnv.profile
    (by unfold sourcesValid; decide)).2.2.2.1

/-! # Lemmas: the post-processing passes only rewrite instructions -/

theorem set_stripC_map :
    ∀ (l : List TurnCandidate) (i : Nat) (v : TurnCandidate),
      stripC v = stripC (l.getD i dummyCandidate) →
      (l.set i v).map stripC = l.map stripC := by
  intro l
  induction l with
  | nil => intro i v _; simp
  | cons c rest ih =>
    intro i v hv
    cases i with
    | zero =>
      simp only [List.set_cons_zero, List.map_cons]
      rw [hv]
      simp
    | succ n =>
      simp only [List.set_cons_succ, List.map_cons]
      rw [ih n v (by simpa using hv)]

theorem modifyInstr_strip (l : List TurnCandidate) (i : Nat)
    (f : TurnInstruction → TurnInstruction) :
    (modifyInstr l i f).map stripC = l.map stripC := by
  unfold modifyInstr
  cases hget : l.get? i with
  | none => rfl
  | some c =>
    refine set_stripC_map l i _ ?_
    have : l.getD i dummyCandidate = c := by
      simp [List.getD, ← List.get?_eq_getElem?, hget]
    rw [this]
    rfl

theorem tryResolve_strip (l : List TurnCandidate) (s n : Nat) (d : Bool)
    (out : List TurnCandidate) (h : tryResolve l s n d = some out) :
    out.map stripC = l.map stripC := by
  unfold tryResolve at h
  dsimp only at h
  split at h
  · cases h
  · cases h
    exact modifyInstr_strip ..

theorem tryResolveTransitive_strip (l : List TurnCandidate) (s n n2 : Nat) (d : Bool)
    (out : List TurnCandidate) (h : tryResolveTransitive l s n n2 d = some out) :
    out.map stripC = l.map stripC := by
  unfold tryResolveTransitive at h
  dsimp only at h
  split at h
  · cases h
  · cases h
    rw [modifyInstr_strip, modifyInstr_strip]

theorem getD_strip (l : List TurnCandidate) (out : List TurnCandidate)
    (o : Option (List TurnCandidate)) (h : ∀ x, o = some x → x.map stripC = l.map stripC) :
    (o.getD out).map stripC = l.map stripC ∨ o.getD out = out := by
  cases o with
  | none => right; rfl
  | some x => left; exact h x rfl

theorem stripC_instr (c : TurnCandidate) (x : TurnInstruction) :
    stripC { c with instruction := x } = stripC c := rfl

theorem conflictAdjust_strip (s : List TurnCandidate) (r si ni : Nat) (d : Bool) :
    (conflictAdjust s r si ni d).1.map stripC = s.map stripC := by
  unfold conflictAdjust
  split
  · rfl
  · cases h : tryResolve s si ni d with
    | none => rfl
    | some s2 => exact tryResolve_strip _ _ _ _ _ h

theorem conflictS2Phase1_strip (l : List TurnCandidate) (b e le rb : Nat) :
    (conflictS2Phase1 l b e le rb).1.map stripC = l.map stripC := by
  unfold conflictS2Phase1
  dsimp only
  split
  · split
    · split
      · rw [conflictAdjust_strip, conflictAdjust_strip]
      · rw [conflictAdjust_strip, conflictAdjust_strip]
    · rfl
  · rfl

theorem conflictS2Phase2_strip (s : List TurnCandidate) (b e le rb : Nat) :
    (conflictS2Phase2 s b e le rb).1.map stripC = s.map stripC := by
  unfold conflictS2Phase2
  split
  · cases h1 : tryResolve s b rb true with
    | some s2 => exact tryResolve_strip _ _ _ _ _ h1
    | none =>
      cases h2 : tryResolve s e le false with
      | some s2 => exact tryResolve_strip _ _ _ _ _ h2
      | none => rfl
  · cases h1 : tryResolve s e le false with
    | some s2 => exact tryResolve_strip _ _ _ _ _ h1
    | none =>
      cases h2 : tryResolve s b rb true with
      | some s2 => exact tryResolve_strip _ _ _ _ _ h2
      | none => rfl

theorem conflictS2Phase3_strip (s : List TurnCandidate) (b e le rb rr ll : Nat) :
    (conflictS2Phase3 s b e le rb rr ll).map stripC = s.map stripC := by
  unfold conflictS2Phase3
  dsimp only
  split
  · split
    · cases h : tryResolveTransitive s b rb rr true with
      | none => rfl
      | some x => exact tryResolveTransitive_strip _ _ _ _ _ _ h
    · cases h : tryResolveTransitive s e le ll false with
      | none => rfl
      | some x => exact tryResolveTransitive_strip _ _ _ _ _ _ h
  · rfl

theorem conflictSize2_strip (l : List TurnCandidate) (b e le rb rr ll : Nat) :
    (conflictSize2 l b e le rb rr ll).map stripC = l.map stripC := by
  unfold conflictSize2
  dsimp only
  split
  · exact conflictS2Phase1_strip l b e le rb
  · split
    · rw [conflictS2Phase2_strip, conflictS2Phase1_strip]
    · rw [conflictS2Phase3_strip, conflictS2Phase2_strip, conflictS2Phase1_strip]

theorem conflictS3Phase1_strip (l : List TurnCandidate) (b e le rb rr ll : Nat) :
    (conflictS3Phase1 l b e le rb rr ll).map stripC = l.map stripC := by
  unfold conflictS3Phase1
  dsimp only
  split
  · rename_i s heq
    exact tryResolve_strip _ _ _ _ _ heq
  · split
    · cases h : tryResolveTransitive l b rb rr true with
      | none => rfl
      | some x => exact tryResolveTransitive_strip _ _ _ _ _ _ h
    · split
      · cases h : tryResolveTransitive l e le ll false with
        | none => rfl
        | some x => exact tryResolveTransitive_strip _ _ _ _ _ _ h
      · rfl

theorem conflictS3Phase2_strip (l : List TurnCandidate) (b e le rb rr ll : Nat) :
    (conflictS3Phase2 l b e le rb rr ll).map stripC = l.map stripC := by
  unfold conflictS3Phase2
  dsimp only
  split
  · rename_i s heq
    exact tryResolve_strip _ _ _ _ _ heq
  · split
    · cases h : tryResolveTransitive l e le ll false with
      | none => rfl
      | some x => exact tryResolveTransitive_strip _ _ _ _ _ _ h
    · split
      · cases h : tryResolveTransitive l b rb rr true with
        | none => rfl
        | some x => exact tryResolveTransitive_strip _ _ _ _ _ _ h
      · rfl

theorem conflictSize3_strip (l : List TurnCandidate) (b e le rb rr ll : Nat) :
    (conflictSize3 l b e le rb rr ll).map stripC = l.map stripC := by
  unfold conflictSize3
  rw [conflictS3Phase2_strip, conflictS3Phase1_strip]

theorem conflictStep_strip (env : FactoryEnv) (cands : List TurnCandidate) (i : Nat) :
    (conflictStep env cands i).1.map stripC = cands.map stripC := by
  unfold conflictStep
  dsimp only
  split
  · rfl
  · split
    · dsimp only
      split
      · apply conflictSize2_strip
      · apply conflictSize3_strip
    · rfl

theorem conflictLoopGo_strip (env : FactoryEnv) :
    ∀ (fuel : Nat) (cands : List TurnCandidate) (idx : Nat),
      (conflictLoopGo env fuel cands idx).map stripC = cands.map stripC := by
  intro fuel
  induction fuel with
  | zero => intro cands idx; rfl
  | succ n ih =>
    intro cands idx
    unfold conflictLoopGo
    dsimp only
    split
    · rw [ih, conflictStep_strip]
    · rfl

theorem rampAdjust_strip (k : Nat) :
    ∀ (l : List TurnCandidate) (t : Bool),
      (rampAdjust k l t).map stripC = l.map stripC := by
  intro l
  induction l with
  | nil => intro t; rfl
  | cons c rest ih =>
    intro t
    unfold rampAdjust
    split
    · simp only [List.map_cons, ih]
    · split
      · simp only [List.map_cons, ih]
      · split
        · simp only [List.map_cons, ih, stripC_instr]
        · simp only [List.map_cons, ih]

theorem handleForkAndEnd_strip (t : TurnType) (l : List TurnCandidate) :
    (handleForkAndEnd t l).map stripC = l.map stripC := by
  unfold handleForkAndEnd
  dsimp only
  rw [modifyInstr_strip, modifyInstr_strip]

theorem optimizeRamps_strip (env : FactoryEnv) (g : Graph) (via_edge : Nat)
    (l : List TurnCandidate) :
    (optimizeRamps env g via_edge l).map stripC = l.map stripC := by
  unfold optimizeRamps
  dsimp only
  split
  · rfl
  · rw [rampAdjust_strip]
    split
    · rw [modifyInstr_strip]
    · rfl

theorem optimizeCandidates_strip (env : FactoryEnv) (g : Graph) (via_eid : Nat)
    (l : List TurnCandidate) :
    (optimizeCandidates env g via_eid l).map stripC = l.map stripC := by
  unfold optimizeCandidates
  dsimp only
  split
  · rfl
  · split
    · rw [handleForkAndEnd_strip]
    · rw [conflictLoopGo_strip]
      repeat' split
      all_goals repeat rw [modifyInstr_strip]
      all_goals rw [optimizeRamps_strip]

theorem suppressStep_strip (env : FactoryEnv) (g : Graph) (via_eid : Nat)
    (ho : Bool) (oa : Q) (l : List TurnCandidate) (i : Nat) :
    (suppressStep env g via_eid ho oa l i).map stripC = l.map stripC := by
  unfold suppressStep
  dsimp only
  generalize hA :
    (if ((getEdgeData g (l.getD i dummyCandidate).eid).name_id ==
          (getEdgeData g via_eid).name_id &&
         !((getEdgeData g via_eid).name_id == 0) &&
         !((l.getD i dummyCandidate).instruction.direction_modifier ==
           DirectionModifier.UTurn) &&
         !ho) then
        modifyInstr l i (fun j => { j with type := TurnType.Continue })
      else l) = A
  have hA1 : A.map stripC = l.map stripC := by
    rw [← hA]
    split
    · rw [modifyInstr_strip]
    · rfl
  generalize hB :
    (if (!(isSlightModifier (getTurnDirection
            (A.getD ((i + 1) % A.length) dummyCandidate).angle)) ||
          !(A.getD ((i + 1) % A.length) dummyCandidate).valid) &&
         (!(isSlightModifier (getTurnDirection
            (A.getD ((i + A.length - 1) % A.length) dummyCandidate).angle)) ||
          !(A.getD ((i + A.length - 1) % A.length) dummyCandidate).valid) &&
         decide (angularDeviation (A.getD i dummyCandidate).angle STRAIGHT_ANGLE <
           FUZZY_STRAIGHT_ANGLE) then
        modifyInstr A i (fun j => { j with direction_modifier := DirectionModifier.Straight })
      else A) = B
  have hB1 : B.map stripC = l.map stripC := by
    rw [← hB]
    split
    · rw [modifyInstr_strip]
      exact hA1
    · exact hA1
  split_ifs
  all_goals repeat rw [modifyInstr_strip]
  all_goals first
    | rfl
    | exact hA1
    | exact hB1

theorem suppressFold_strip (env : FactoryEnv) (g : Graph) (via_eid : Nat)
    (ho : Bool) (oa : Q) :
    ∀ (L : List Nat) (acc : List TurnCandidate),
      (L.foldl (suppressStep env g via_eid ho oa) acc).map stripC = acc.map stripC := by
  intro L
  induction L with
  | nil => intro acc; rfl
  | cons x xs ih =>
    intro acc
    rw [List.foldl_cons, ih, suppressStep_strip]

theorem suppressTurns_strip (env : FactoryEnv) (g : Graph) (via_eid : Nat)
    (l : List TurnCandidate) :
    (suppressTurns env g via_eid l).map stripC = l.map stripC := by
  unfold suppressTurns
  dsimp only
  split
  · rename_i r heq
    repeat' split at heq
    all_goals cases heq
    all_goals repeat rw [modifyInstr_strip]
  · apply suppressFold_strip

theorem pipelineCandidates_strip (env : FactoryEnv) (g : Graph) (garbage : Bool)
    (node_u via_eid : Nat) :
    (pipelineCandidates env g garbage node_u via_eid).map stripC =
      ((getTurnCandidates env g garbage node_u via_eid).1).map stripC := by
  unfold pipelineCandidates
  rw [suppressTurns_strip, optimizeCandidates_strip]

theorem processOnto_eid (env : FactoryEnv) (g : Graph) (u e tn o : Nat) (b : Bool)
    (onto : Nat) : (processOnto env g u e tn o b onto).1.eid = onto := rfl

theorem processOnto_valid_not_reversed (env : FactoryEnv) (g : Graph)
    (u e tn o : Nat) (b : Bool) (onto : Nat)
    (h : (processOnto env g u e tn o b onto).1.valid = true) :
    (getEdgeData g onto).reversed = false := by
  unfold processOnto at h
  dsimp only at h
  split_ifs at h <;> simp_all

theorem dedupGo_subset :
    ∀ (fuel : Nat) (l : List TurnCandidate) (i : Nat), dedupGo fuel l i ⊆ l := by
  intro fuel
  induction fuel with
  | zero => intro l i x hx; exact hx
  | succ n ih =>
    intro l i
    unfold dedupGo
    split
    · dsimp only
      split
      · exact fun x hx => (l.eraseIdx_sublist i).subset (ih _ _ hx)
      · exact ih _ _
    · exact fun x hx => hx

theorem removeInvalidEquivalents_subset (l : List TurnCandidate) :
    removeInvalidEquivalents l ⊆ l := dedupGo_subset _ _ _

theorem reclassifyEntry_eid (c : TurnCandidate) : (reclassifyEntry c).eid = c.eid := by
  unfold reclassifyEntry
  split <;> rfl

theorem reclassifyEntry_valid (c : TurnCandidate) :
    (reclassifyEntry c).valid = c.valid := by
  unfold reclassifyEntry
  split <;> rfl

theorem getTurnCandidates_sound (env : FactoryEnv) (g : Graph) (garbage : Bool)
    (u e : Nat) :
    ∀ c ∈ (getTurnCandidates env g garbage u e).1,
      c.eid ∈ adjacentEdges g (GetTarget g e) ∧
      (c.valid = true → (getEdgeData g c.eid).reversed = false) := by
  intro c hc
  unfold getTurnCandidates at hc
  dsimp only at hc
  replace hc := removeInvalidEquivalents_subset _ hc
  unfold sortByAngle at hc
  replace hc := (List.perm_insertionSort _ _).mem_iff.mp hc
  obtain ⟨c0, hc0mem, heid, hvalid⟩ :
      ∃ c0, c0 ∈ ((adjacentEdges g (GetTarget g e)).map
          (processOnto env g u e (GetTarget g e)
            (env.onlyTurnTarget u (GetTarget g e))
            (env.isBarrier (GetTarget g e)))).map (fun r => r.1) ∧
        c0.eid = c.eid ∧ c0.valid = c.valid := by
    split at hc
    · obtain ⟨c0, hm, rfl⟩ := List.mem_map.mp hc
      exact ⟨c0, hm, (reclassifyEntry_eid c0).symm, (reclassifyEntry_valid c0).symm⟩
    · exact ⟨c, hc, rfl, rfl⟩
  obtain ⟨r, hr, hrc⟩ := List.mem_map.mp hc0mem
  obtain ⟨onto, ho, hor⟩ := List.mem_map.mp hr
  have heq : (processOnto env g u e (GetTarget g e)
      (env.onlyTurnTarget u (GetTarget g e))
      (env.isBarrier (GetTarget g e)) onto).1 = c0 := by rw [hor, hrc]
  have he : c.eid = onto := by rw [← heid, ← heq]; rfl
  constructor
  · rw [he]
    exact ho
  · intro hv
    have hv0 : (processOnto env g u e (GetTarget g e)
        (env.onlyTurnTarget u (GetTarget g e))
        (env.isBarrier (GetTarget g e)) onto).1.valid = true := by
      rw [heq, hvalid]
      exact hv
    rw [he]
    exact processOnto_valid_not_reversed env g u e (GetTarget g e)
      (env.onlyTurnTarget u (GetTarget g e)) (env.isBarrier (GetTarget g e)) onto hv0

theorem specEdges_getElem (env : FactoryEnv) (g : Graph) :
    ∀ (L : List (Nat × Nat × TurnCandidate)) (n i : Nat),
      (specEdges env g n L)[i]? = (L[i]?).map (specEdge env g (n + i)) := by
  intro L
  induction L with
  | nil => intro n i; simp [specEdges]
  | cons t rest ih =>
    intro n i
    cases i with
    | zero => simp [specEdges]
    | succ k =>
      have h1 : (specEdges env g n (t :: rest))[k + 1]? =
          (specEdges env g (n + 1) rest)[k]? := by
        simp [specEdges]
      rw [h1, ih (n + 1) k, List.getElem?_cons_succ]
      have e1 : n + 1 + k = n + (k + 1) := by omega
      rw [e1]

theorem survivors_mem (env : FactoryEnv) (g : Graph) (garbage : Bool)
    (t : Nat × Nat × TurnCandidate) (ht : t ∈ survivors env g garbage) :
    t.2.1 ∈ adjacentEdges g t.1 ∧
    (getEdgeData g t.2.1).reversed = false ∧
    t.2.2.valid = true ∧
    t.2.2.eid ∈ adjacentEdges g (GetTarget g t.2.1) ∧
    (getEdgeData g t.2.2.eid).reversed = false := by
  unfold survivors at ht
  obtain ⟨u, hu, ht2⟩ := List.mem_flatMap.mp ht
  obtain ⟨e, he, ht3⟩ := List.mem_flatMap.mp ht2
  split at ht3
  · simp at ht3
  · rename_i hrev
    unfold survOfEdge at ht3
    obtain ⟨c, hcmem, hct⟩ := List.mem_map.mp ht3
    obtain ⟨hcp, hcv⟩ := List.mem_filter.mp hcmem
    cases hct
    have hstrip : stripC c ∈ ((getTurnCandidates env g garbage u e).1).map stripC := by
      rw [← pipelineCandidates_strip]
      exact List.mem_map_of_mem _ hcp
    obtain ⟨c0, hc0, hsc⟩ := List.mem_map.mp hstrip
    have heid : c0.eid = c.eid := congrArg (fun p => p.1) hsc
    have hval : c0.valid = c.valid := congrArg (fun p => p.2.1) hsc
    have sound := getTurnCandidates_sound env g garbage u e c0 hc0
    refine ⟨he, ?_, ?_, ?_, ?_⟩
    · simpa using hrev
    · simpa using hcv
    · rw [← heid]
      exact sound.1
    · rw [← heid]
      exact sound.2 (by rw [hval]; simpa using hcv)

theorem claimWeight_ge (env : FactoryEnv) (g : Graph) (via v : Nat)
    (c : TurnCandidate)
    (hts : 0 ≤ env.profile.traffic_signal_penalty ∧
      env.profile.traffic_signal_penalty ≤ 1073741823)
    (hut : 0 ≤ env.profile.u_turn_penalty ∧ env.profile.u_turn_penalty ≤ 1073741823)
    (hhook : ∀ q r, env.turnHook q = some r →
      0 ≤ cppTruncToInt r ∧ cppTruncToInt r ≤ 1073741823)
    (hd : (getEdgeData g via).distance ≤ 1073741823) :
    (getEdgeData g via).distance ≤ claimWeight env g via v c := by
  have key : ∀ a b e2 : Int, 0 ≤ a → a ≤ 1073741823 → 0 ≤ b → b ≤ 1073741823 →
      0 ≤ e2 → e2 ≤ 1073741823 →
      (getEdgeData g via).distance ≤
        ((((getEdgeData g via).distance : Int) + a + b + e2) % U32MOD).toNat := by
    intro a b e2 ha1 ha2 hb1 hb2 he1 he2
    simp only [U32MOD]
    omega
  unfold claimWeight
  refine key _ _ _ ?_ ?_ ?_ ?_ ?_ ?_
  · split
    · exact hts.1
    · exact le_refl 0
  · split
    · exact hts.2
    · norm_num
  · split
    · exact hut.1
    · exact le_refl 0
  · split
    · exact hut.2
    · norm_num
  · split
    · cases hh : env.turnHook (180 - c.angle) with
      | none => exact le_refl 0
      | some r => exact (hhook _ _ hh).1
    · exact le_refl 0
  · split
    · cases hh : env.turnHook (180 - c.angle) with
      | none => norm_num
      | some r => exact (hhook _ _ hh).2
    · norm_num

/-- C2 (amended): under the additional hypotheses that the graph has no self
loops, that the forward edge ids are injectively assigned, and that the two
profile penalties, every hook penalty and every edge distance are nonnegative
and small enough that the unsigned 32-bit accumulation cannot wrap, every
expanded edge appended by `GenerateEdgeExpandedEdges` has distinct forward ids
and a weight at least the distance of its via edge.  (The unamended claim is
refuted by `claim2_counterexample`: a negative hook penalty drives the weight
below the via distance.) -/
theorem claim2_amended_expanded_edge_invariants
    (env : FactoryEnv) (g : Graph) (garbage : Bool)
    (hself : noSelfLoops g)
    (hinj : ∀ i ∈ List.range g.edges.length, ∀ j ∈ List.range g.edges.length,
      (getEdgeData g i).reversed = false → (getEdgeData g j).reversed = false →
      (getEdgeData g i).edge_id = (getEdgeData g j).edge_id → i = j)
    (hts : 0 ≤ env.profile.traffic_signal_penalty ∧
      env.profile.traffic_signal_penalty ≤ 1073741823)
    (hut : 0 ≤ env.profile.u_turn_penalty ∧ env.profile.u_turn_penalty ≤ 1073741823)
    (hhook : ∀ q r, env.turnHook q = some r →
      0 ≤ cppTruncToInt r ∧ cppTruncToInt r ≤ 1073741823)
    (hdist : ∀ i ∈ List.range g.edges.length,
      (getEdgeData g i).distance ≤ 1073741823) :
    ∀ (i : Nat) (t : Nat × Nat × TurnCandidate) (ed : ExpandedEdge),
      (survivors env g garbage)[i]? = some t →
      (GenerateEdgeExpandedEdges env g garbage).edges[i]? = some ed →
      ed.source ≠ ed.target ∧ (getEdgeData g t.2.1).distance ≤ ed.weight := by
  intro i t ed hs hedge
  rw [(gen_output_spec env g garbage).1, specEdges_getElem, hs] at hedge
  cases hedge
  have ht : t ∈ survivors env g garbage := by
    have hlt : i < (survivors env g garbage).length := by
      by_contra hge
      rw [List.getElem?_eq_none (by omega)] at hs
      exact Option.noConfusion hs
    have := List.getElem?_eq_getElem hlt
    rw [this] at hs
    cases hs
    exact List.getElem_mem hlt
  obtain ⟨hvia_adj, hvia_rev, hcvalid, hceid_adj, hceid_rev⟩ :=
    survivors_mem env g garbage t ht
  have hvia := (mem_adjacentEdges g t.1 t.2.1).mp hvia_adj
  have hc := (mem_adjacentEdges g (GetTarget g t.2.1) t.2.2.eid).mp hceid_adj
  constructor
  · intro hcontra
    dsimp only [specEdge] at hcontra
    have hne : t.2.1 ≠ t.2.2.eid := by
      intro heq
      have hviaSrc : (edgeAt g.edges t.2.1).source = t.1 := hvia.2
      have hcSrc : (edgeAt g.edges t.2.2.eid).source = GetTarget g t.2.1 := hc.2
      have hGT : GetTarget g t.2.1 = (edgeAt g.edges t.2.1).target := rfl
      have hneq := hself _ (edgeAt_mem _ _ hvia.1)
      apply hneq
      rw [← heq] at hcSrc
      rw [hcSrc]
      exact hGT.symm
    exact hne (hinj t.2.1 (List.mem_range.mpr hvia.1) t.2.2.eid
      (List.mem_range.mpr hc.1) hvia_rev hceid_rev hcontra)
  · dsimp only [specEdge]
    exact claimWeight_ge env g t.2.1 (GetTarget g t.2.1) t.2.2 hts hut hhook
      (hdist t.2.1 (List.mem_range.mpr hvia.1))

theorem claim2_witness :
    noSelfLoops gTwoWayR ∧
    (∀ i ∈ List.range gTwoWayR.edges.length, ∀ j ∈ List.range gTwoWayR.edges.length,
      (getEdgeData gTwoWayR i).reversed = false →
      (getEdgeData gTwoWayR j).reversed = false →
      (getEdgeData gTwoWayR i).edge_id = (getEdgeData gTwoWayR j).edge_id → i = j) ∧
    (0 ≤ baseEnv.profile.traffic_signal_penalty ∧
      baseEnv.profile.traffic_signal_penalty ≤ 1073741823) ∧
    (0 ≤ baseEnv.profile.u_turn_penalty ∧
      baseEnv.profile.u_turn_penalty ≤ 1073741823) ∧
    (∀ q r, baseEnv.turnHook q = some r →
      0 ≤ cppTruncToInt r ∧ cppTruncToInt r ≤ 1073741823) ∧
    (∀ i ∈ List.range gTwoWayR.edges.length,
      (getEdgeData gTwoWayR i).distance ≤ 1073741823) ∧
    (∀ (i : Nat) (t : Nat × Nat × TurnCandidate) (ed : ExpandedEdge),
      (survivors baseEnv gTwoWayR false)[i]? = some t →
      (GenerateEdgeExpandedEdges baseEnv gTwoWayR false).edges[i]? = some ed →
      ed.source ≠ ed.target ∧ (getEdgeData gTwoWayR t.2.1).distance ≤ ed.weight) := by
  have h1 : noSelfLoops gTwoWayR := by unfold noSelfLoops; decide
  have h2 : ∀ i ∈ List.range gTwoWayR.edges.length,
      ∀ j ∈ List.range gTwoWayR.edges.length,
      (getEdgeData gTwoWayR i).reversed = false →
      (getEdgeData gTwoWayR j).reversed = false →
      (getEdgeData gTwoWayR i).edge_id = (getEdgeData gTwoWayR j).edge_id → i = j := by
    decide
  have h3 : 0 ≤ baseEnv.profile.traffic_signal_penalty ∧
      baseEnv.profile.traffic_signal_penalty ≤ 1073741823 := by decide
  have h4 : 0 ≤ baseEnv.profile.u_turn_penalty ∧
      baseEnv.profile.u_turn_penalty ≤ 1073741823 := by decide
  have h5 : ∀ q r, baseEnv.turnHook q = some r →
      0 ≤ cppTruncToInt r ∧ cppTruncToInt r ≤ 1073741823 := fun q r h => nomatch h
  have h6 : ∀ i ∈ List.range gTwoWayR.edges.length,
      (getEdgeData gTwoWayR i).distance ≤ 1073741823 := by decide
  exact ⟨h1, h2, h3, h4, h5, h6,
    claim2_amended_expanded_edge_invariants baseEnv gTwoWayR false h1 h2 h3 h4 h5 h6⟩

end EBGF
